import Mathlib

/-!
# TMOP partial-assembly Hessian setup (2D): `fem/tmop_pa_h2s.cpp`

A shallow embedding of the metric Hessian evaluators `EvalH_001`, `EvalH_002`,
the kernel `SetupGradPA_2D` and the dispatcher
`TMOP_Integrator::AssembleGradPA_2D`, followed by an embedding of the class
`ConvergenceRates` of `tests/convergence/conv_rates.cpp`.  The definitions come
first, the properties after them.

Conventions of the embedding.

* `double` is an arbitrary field `K` (exact arithmetic); the definitions are
  computable and can be evaluated at `K := ℚ`.  Statements about derivatives
  are made at `K := ℝ`.
* A pointer or `Vector`/`Array<double>` is a function `Nat → K` (cell number to
  content); a store is `Function.update`.
* A `for (int i = 0; i < n; i++)` loop, and the CPU expansion of
  `MFEM_FORALL_2D` / `MFEM_FOREACH_THREAD`, is `forLoop n`.
* The sizes `NE`, `D1D`, `Q1D`, and the loop counters are natural numbers; the
  metric id is an `Int`.
-/

namespace mfem

/-! ## Loops and device tensors -/

/-- The loop `for (int i = 0; i < n; i++) body`, run on the state `s`. -/
def forLoop {σ : Type} (n : Nat) (body : Nat → σ → σ) (s : σ) : σ :=
  (List.range n).foldl (fun s i => body i s) s

/-- Modelled from the spec: `TensorInd` of `linalg/dtensor.hpp` (the index
computation of `DeviceTensor`, not among the sources).  The tensor is dense and
the first index runs fastest: `first + sizes[0] * (second + sizes[1] * ...)`,
the last index being taken as it is. -/
def TensorInd : List Nat → List Nat → Nat
  | _, [] => 0
  | _, [a] => a
  | [], a :: _ => a
  | s :: ss, a :: as => a + s * TensorInd ss as

/-- Modelled from the spec: `DeviceTensor<Dim,double>` of `linalg/dtensor.hpp`:
a pointer together with the sizes it was reshaped with. -/
structure DeviceTensor (K : Type) (sizes : List Nat) where
  /-- The memory the tensor points to. -/
  data : Nat → K

/-- The call `Reshape(ptr, sizes...)`. -/
def Reshape {K : Type} (p : Nat → K) (sizes : List Nat) : DeviceTensor K sizes :=
  ⟨p⟩

/-- Reading `T(args...)`. -/
def DeviceTensor.get {K : Type} {sizes : List Nat} (T : DeviceTensor K sizes)
    (args : List Nat) : K :=
  T.data (TensorInd sizes args)

/-- The store `T(args...) = v`. -/
def DeviceTensor.set {K : Type} {sizes : List Nat} (T : DeviceTensor K sizes)
    (args : List Nat) (v : K) : DeviceTensor K sizes :=
  ⟨Function.update T.data (TensorInd sizes args) v⟩

/-- The sizes `DIM, DIM, DIM, DIM, Q1D, Q1D, NE` of the output tensor `H`. -/
abbrev HSizes (Q1D NE : Nat) : List Nat := [2, 2, 2, 2, Q1D, Q1D, NE]

/-! ## Invariant evaluator (`kernels::InvariantsEvaluator2D`) -/

section Invariants

variable {K : Type} [Field K]

/-- Modelled from the spec: `InvariantsEvaluator2D::Get_I1` of
`linalg/dinvariants.hpp` (not among the sources): "I1 is the squared Frobenius
norm of the matrix". -/
def Get_I1 (J : Nat → K) : K :=
  J 0 * J 0 + J 1 * J 1 + J 2 * J 2 + J 3 * J 3

/-- Modelled from the spec: `InvariantsEvaluator2D::Get_I2b` of
`linalg/dinvariants.hpp` (not among the sources): the determinant of the 2x2
matrix stored column by column. -/
def Get_I2b (J : Nat → K) : K :=
  J 0 * J 3 - J 1 * J 2

/-- Modelled from the spec: `InvariantsEvaluator2D::Get_I1b` of
`linalg/dinvariants.hpp` (not among the sources): "I1b is detJ-normalized",
the squared Frobenius norm divided by the determinant. -/
def Get_I1b (J : Nat → K) : K :=
  Get_I1 J / Get_I2b J

/-- Modelled from the spec: `InvariantsEvaluator2D::Get_dI1` of
`linalg/dinvariants.hpp` (not among the sources): the first derivative of `I1`
with respect to each matrix entry. -/
def Get_dI1 (J : Nat → K) : Nat → K :=
  fun n => 2 * J n

/-- Modelled from the spec: `InvariantsEvaluator2D::Get_dI2b` of
`linalg/dinvariants.hpp` (not among the sources): the first derivative of the
determinant with respect to each matrix entry (the cofactors). -/
def Get_dI2b (J : Nat → K) : Nat → K :=
  fun n => match n with
    | 0 => J 3
    | 1 => - J 2
    | 2 => - J 1
    | 3 => J 0
    | _ => 0

/-- The second derivative of the determinant with respect to the entries
numbered `k` and `l` (a constant). -/
def ddI2b (k l : Nat) : K :=
  if (k = 0 ∧ l = 3) ∨ (k = 3 ∧ l = 0) then 1
  else if (k = 1 ∧ l = 2) ∨ (k = 2 ∧ l = 1) then -1
  else 0

/-- Kronecker delta `δ(a = b)`. -/
def delta (a b : Nat) : K :=
  if a = b then 1 else 0

/-- Modelled from the spec: `InvariantsEvaluator2D::Get_ddI1(i,j)` of
`linalg/dinvariants.hpp` (not among the sources): "its second derivative
w.r.t. entries (i,j) and (r,c) is 2·δ(i=r)·δ(j=c) (constant)".  The result is a
2x2 matrix stored column by column: entry `(r,c)` is cell `r + 2*c`. -/
def Get_ddI1 (i j : Nat) : Nat → K :=
  fun n => 2 * delta i (n % 2) * delta j (n / 2)

/-- Modelled from the spec: `InvariantsEvaluator2D::Get_ddI1b(i,j)` of
`linalg/dinvariants.hpp` (not among the sources): the second derivative of
`I1b = I1 / I2b` with respect to the entry `(i,j)` and each entry `(r,c)`, by
the quotient rule; a 2x2 matrix stored column by column. -/
def Get_ddI1b (J : Nat → K) (i j : Nat) : Nat → K :=
  fun n =>
    let l := i + 2 * j
    let I1 := Get_I1 J
    let I2b := Get_I2b J
    Get_ddI1 i j n / I2b
      - (Get_dI1 J n * Get_dI2b J l + Get_dI1 J l * Get_dI2b J n) / (I2b * I2b)
      - I1 * ddI2b n l / (I2b * I2b)
      + 2 * I1 * Get_dI2b J n * Get_dI2b J l / (I2b * I2b * I2b)

/-- The matrix `ConstDeviceMatrix m(p, h, w)` read at `(r,c)`. -/
def ConstDeviceMatrix (p : Nat → K) (h w : Nat) (r c : Nat) : K :=
  (Reshape p [h, w]).get [r, c]

end Invariants

/-! ## Metric Hessian evaluators -/

section Evaluators

variable {K : Type} [Field K]

/-- The evaluator `EvalH_001`: `weight * ddI1`. -/
def EvalH_001 {Q1D NE : Nat} (e qx qy : Nat) (weight : K) (_Jpt : Nat → K)
    (H : DeviceTensor K (HSizes Q1D NE)) : DeviceTensor K (HSizes Q1D NE) :=
  forLoop 2 (fun i H =>
    forLoop 2 (fun j H =>
      let ddi1 := ConstDeviceMatrix (Get_ddI1 i j : Nat → K) 2 2
      forLoop 2 (fun r H =>
        forLoop 2 (fun c H =>
          let h := ddi1 r c
          H.set [r, c, i, j, qx, qy, e] (weight * h)) H) H) H) H

/-- The evaluator `EvalH_002`: `0.5 * weight * ddI1b`. -/
def EvalH_002 {Q1D NE : Nat} (e qx qy : Nat) (weight : K) (Jpt : Nat → K)
    (H : DeviceTensor K (HSizes Q1D NE)) : DeviceTensor K (HSizes Q1D NE) :=
  let w := 0.5 * weight
  forLoop 2 (fun i H =>
    forLoop 2 (fun j H =>
      let ddi1b := ConstDeviceMatrix (Get_ddI1b Jpt i j) 2 2
      forLoop 2 (fun r H =>
        forLoop 2 (fun c H =>
          let h := ddi1b r c
          H.set [r, c, i, j, qx, qy, e] (w * h)) H) H) H) H

/-- The metric dispatch of `SetupGradPA_2D` (`// metric->AssembleH`):
`if (mid == 1) EvalH_001(...); if (mid == 2) EvalH_002(...);`. -/
def AssembleH {Q1D NE : Nat} (mid : Int) (e qx qy : Nat) (weight : K)
    (Jpt : Nat → K) (H : DeviceTensor K (HSizes Q1D NE)) :
    DeviceTensor K (HSizes Q1D NE) :=
  let H := if mid = 1 then EvalH_001 e qx qy weight Jpt H else H
  if mid = 2 then EvalH_002 e qx qy weight Jpt H else H

end Evaluators

/-! ## Small dense kernels and shared-memory tiles -/

section Kernels

variable {K : Type} [Field K]

/-- Modelled from the spec: `kernels::Det<2>` of `linalg/kernels.hpp` (not
among the sources): the determinant `det(Jtr)` of a 2x2 matrix stored column by
column. -/
def Det2 (data : Nat → K) : K :=
  data 0 * data 3 - data 1 * data 2

/-- Modelled from the spec: `kernels::CalcInverse<2>` of `linalg/kernels.hpp`
(not among the sources): "invert the reference Jacobian (`Jtr` → `Jrt`)", the
adjugate scaled by the reciprocal of the determinant. -/
def CalcInverse2 (data : Nat → K) : Nat → K :=
  let t := 1 / Det2 data
  fun n => match n with
    | 0 => data 3 * t
    | 1 => - data 1 * t
    | 2 => - data 2 * t
    | 3 => data 0 * t
    | _ => 0

/-- Modelled from the spec: `kernels::Mult(Aheight, Awidth, Bwidth, B, C, A)` of
`linalg/kernels.hpp` (not among the sources): the matrix product `A = B * C`
("`Jpt = Jpr · Jrt`"), all matrices stored column by column. -/
def Mult (Aheight Awidth Bwidth : Nat) (Bdata Cdata : Nat → K) : Nat → K :=
  let A := forLoop (Aheight * Bwidth) (fun i A => Function.update A i 0) (fun _ => 0)
  forLoop Bwidth (fun j A =>
    forLoop Awidth (fun k A =>
      forLoop Aheight (fun i A =>
        Function.update A (i + j * Aheight)
          (A (i + j * Aheight) + Bdata (i + k * Aheight) * Cdata (k + j * Awidth)))
        A) A) A

/-- A shared array `double s[n][NBZ][size]` with `NBZ = 1`: the pair `(a, m)` is
cell `m` of the tile `s[a][0]`. -/
abbrev Tiles (K : Type) : Type := Nat × Nat → K

/-- The `MFEM_SHARED` arrays before any store. -/
def Tiles.fresh : Tiles K := fun _ => 0

/-- Modelled from the spec: `kernels::LoadX<MD1,NBZ>` of `fem/tmop_pa.hpp` (not
among the sources): "stage nodal values ... into fast shared-memory tiles".
The tiles `sX[0]`, `sX[1]` are `MD1 x MD1` matrices holding the two components
of the nodes of element `e`. -/
def LoadX {sz : List Nat} (MD1 e D1D : Nat) (X : DeviceTensor K sz) (sX : Tiles K) :
    Tiles K :=
  forLoop D1D (fun dy s =>
    forLoop D1D (fun dx s =>
      let s := Function.update s (0, TensorInd [MD1, MD1] [dx, dy]) (X.get [dx, dy, 0, e])
      Function.update s (1, TensorInd [MD1, MD1] [dx, dy]) (X.get [dx, dy, 1, e])) s) sX

/-- Modelled from the spec: `kernels::LoadBG<MD1,MQ1>` of `fem/tmop_pa.hpp` (not
among the sources): "stage ... basis tables into fast shared-memory tiles".
The tiles `sBG[0]`, `sBG[1]` are `MD1 x MQ1` matrices: `B(d,q) = b(q,d)` and
`G(d,q) = g(q,d)`. -/
def LoadBG {sz : List Nat} (MD1 MQ1 D1D Q1D : Nat) (b g : DeviceTensor K sz)
    (sBG : Tiles K) : Tiles K :=
  forLoop D1D (fun d s =>
    forLoop Q1D (fun q s =>
      let s := Function.update s (0, TensorInd [MD1, MQ1] [d, q]) (b.get [q, d])
      Function.update s (1, TensorInd [MD1, MQ1] [d, q]) (g.get [q, d])) s) sBG

/-- Modelled from the spec: `kernels::GradX<MD1,MQ1,NBZ>` of `fem/tmop_pa.hpp`
(not among the sources): the "separable (tensor-product) contraction of nodal
values against derivative basis tables, first along one reference axis".  The
four `MQ1 x MD1` tiles of `sDQ` receive `X0B, X0G, X1B, X1G`. -/
def GradX (MD1 MQ1 D1D Q1D : Nat) (sBG sX sDQ : Tiles K) : Tiles K :=
  forLoop D1D (fun dy s =>
    forLoop Q1D (fun qx s =>
      let uv := forLoop D1D (fun dx (uv : (K × K) × (K × K)) =>
        let xx := sX (0, TensorInd [MD1, MD1] [dx, dy])
        let xy := sX (1, TensorInd [MD1, MD1] [dx, dy])
        ((uv.1.1 + sBG (0, TensorInd [MD1, MQ1] [dx, qx]) * xx,
          uv.1.2 + sBG (0, TensorInd [MD1, MQ1] [dx, qx]) * xy),
         (uv.2.1 + sBG (1, TensorInd [MD1, MQ1] [dx, qx]) * xx,
          uv.2.2 + sBG (1, TensorInd [MD1, MQ1] [dx, qx]) * xy))) ((0, 0), (0, 0))
      let s := Function.update s (0, TensorInd [MQ1, MD1] [qx, dy]) uv.1.1
      let s := Function.update s (1, TensorInd [MQ1, MD1] [qx, dy]) uv.2.1
      let s := Function.update s (2, TensorInd [MQ1, MD1] [qx, dy]) uv.1.2
      Function.update s (3, TensorInd [MQ1, MD1] [qx, dy]) uv.2.2) s) sDQ

/-- Modelled from the spec: `kernels::GradY<MD1,MQ1,NBZ>` of `fem/tmop_pa.hpp`
(not among the sources): the second pass of the separable contraction, "then
the other" reference axis.  The four `MQ1 x MQ1` tiles of `sQQ` receive
`X0GB, X0BG, X1GB, X1BG`. -/
def GradY (MD1 MQ1 D1D Q1D : Nat) (sBG sDQ sQQ : Tiles K) : Tiles K :=
  forLoop Q1D (fun qy s =>
    forLoop Q1D (fun qx s =>
      let uv := forLoop D1D (fun dy (uv : (K × K) × (K × K)) =>
        ((uv.1.1 + sDQ (1, TensorInd [MQ1, MD1] [qx, dy])
            * sBG (0, TensorInd [MD1, MQ1] [dy, qy]),
          uv.1.2 + sDQ (3, TensorInd [MQ1, MD1] [qx, dy])
            * sBG (0, TensorInd [MD1, MQ1] [dy, qy])),
         (uv.2.1 + sDQ (0, TensorInd [MQ1, MD1] [qx, dy])
            * sBG (1, TensorInd [MD1, MQ1] [dy, qy]),
          uv.2.2 + sDQ (2, TensorInd [MQ1, MD1] [qx, dy])
            * sBG (1, TensorInd [MD1, MQ1] [dy, qy]))) ) ((0, 0), (0, 0))
      let s := Function.update s (0, TensorInd [MQ1, MQ1] [qx, qy]) uv.1.1
      let s := Function.update s (1, TensorInd [MQ1, MQ1] [qx, qy]) uv.2.1
      let s := Function.update s (2, TensorInd [MQ1, MQ1] [qx, qy]) uv.1.2
      Function.update s (3, TensorInd [MQ1, MQ1] [qx, qy]) uv.2.2) s) sQQ

/-- Modelled from the spec: `kernels::PullGradXY<MQ1,NBZ>` of `fem/tmop_pa.hpp`
(not among the sources): the "reference-to-physical gradient (`Jpr`)" at the
quadrature point `(qx,qy)`, stored column by column. -/
def PullGradXY (MQ1 qx qy : Nat) (sQQ : Tiles K) : Nat → K :=
  fun n => match n with
    | 0 => sQQ (0, TensorInd [MQ1, MQ1] [qx, qy])
    | 1 => sQQ (2, TensorInd [MQ1, MQ1] [qx, qy])
    | 2 => sQQ (1, TensorInd [MQ1, MQ1] [qx, qy])
    | 3 => sQQ (3, TensorInd [MQ1, MQ1] [qx, qy])
    | _ => 0

end Kernels

/-! ## The kernel `SetupGradPA_2D` and its dispatcher -/

section Setup

variable {K : Type} [Field K]

/-- The kernel `SetupGradPA_2D<T_D1D,T_Q1D,T_MAX>(x_, metric_normal, mid, NE, w_, b_, g_,
j_, h_, d1d, q1d)`; the result is the content of `h_` after the call. -/
def SetupGradPA_2D (T_D1D T_Q1D T_MAX : Nat) (x_ : Nat → K) (metric_normal : K)
    (mid : Int) (NE : Nat) (w_ b_ g_ j_ h_ : Nat → K) (d1d q1d : Nat) : Nat → K :=
  let D1D := if T_D1D ≠ 0 then T_D1D else d1d
  let Q1D := if T_Q1D ≠ 0 then T_Q1D else q1d
  let W := Reshape w_ [Q1D, Q1D]
  let b := Reshape b_ [Q1D, D1D]
  let g := Reshape g_ [Q1D, D1D]
  let J := Reshape j_ [2, 2, Q1D, Q1D, NE]
  let X := Reshape x_ [D1D, D1D, 2, NE]
  let H := Reshape h_ (HSizes Q1D NE)
  (forLoop NE (fun e H =>
    let MQ1 := if T_Q1D ≠ 0 then T_Q1D else T_MAX
    let MD1 := if T_D1D ≠ 0 then T_D1D else T_MAX
    let s_X := LoadX MD1 e D1D X Tiles.fresh
    let s_BG := LoadBG MD1 MQ1 D1D Q1D b g Tiles.fresh
    let s_DQ := GradX MD1 MQ1 D1D Q1D s_BG s_X Tiles.fresh
    let s_QQ := GradY MD1 MQ1 D1D Q1D s_BG s_DQ Tiles.fresh
    forLoop Q1D (fun qy H =>
      forLoop Q1D (fun qx H =>
        let Jtr : Nat → K := fun n => J.data (TensorInd [2, 2, Q1D, Q1D, NE] [0, 0, qx, qy, e] + n)
        let detJtr := Det2 Jtr
        let weight := metric_normal * W.get [qx, qy] * detJtr
        let Jrt := CalcInverse2 Jtr
        let Jpr := PullGradXY MQ1 qx qy s_QQ
        let Jpt := Mult 2 2 2 Jpr Jrt
        AssembleH mid e qx qy weight Jpt H) H) H) H).data

/-- The reference Jacobian `Jtr = &J(0,0,qx,qy,e)` of a quadrature point. -/
def pointJtr (Q1D NE : Nat) (j_ : Nat → K) (e qx qy : Nat) : Nat → K :=
  fun n => j_ (TensorInd [2, 2, Q1D, Q1D, NE] [0, 0, qx, qy, e] + n)

/-- The integration weight `metric_normal * W(qx,qy) * detJtr` of a quadrature
point, as computed in `SetupGradPA_2D`. -/
def pointWeight (Q1D NE : Nat) (metric_normal : K) (w_ j_ : Nat → K) (e qx qy : Nat) : K :=
  metric_normal * (Reshape w_ [Q1D, Q1D]).get [qx, qy] * Det2 (pointJtr Q1D NE j_ e qx qy)

/-- The tiles `s_QQ` of element `e`, as computed in `SetupGradPA_2D` with tile
strides `MD1`, `MQ1`. -/
def elementQQ (MD1 MQ1 D1D Q1D NE : Nat) (x_ b_ g_ : Nat → K) (e : Nat) : Tiles K :=
  let s_X := LoadX MD1 e D1D (Reshape x_ [D1D, D1D, 2, NE]) Tiles.fresh
  let s_BG := LoadBG MD1 MQ1 D1D Q1D (Reshape b_ [Q1D, D1D]) (Reshape g_ [Q1D, D1D])
    Tiles.fresh
  let s_DQ := GradX MD1 MQ1 D1D Q1D s_BG s_X Tiles.fresh
  GradY MD1 MQ1 D1D Q1D s_BG s_DQ Tiles.fresh

/-- The gradient `Jpr` at a quadrature point, as computed in `SetupGradPA_2D`. -/
def pointJpr (MD1 MQ1 D1D Q1D NE : Nat) (x_ b_ g_ : Nat → K) (e qx qy : Nat) : Nat → K :=
  PullGradXY MQ1 qx qy (elementQQ MD1 MQ1 D1D Q1D NE x_ b_ g_ e)

/-- The local Jacobian `Jpt = Jpr . Jrt` at a quadrature point, as computed in
`SetupGradPA_2D`. -/
def pointJpt (MD1 MQ1 D1D Q1D NE : Nat) (x_ b_ g_ j_ : Nat → K) (e qx qy : Nat) :
    Nat → K :=
  Mult 2 2 2 (pointJpr MD1 MQ1 D1D Q1D NE x_ b_ g_ e qx qy)
    (CalcInverse2 (pointJtr Q1D NE j_ e qx qy))

/-- The value stored in `H(r,c,i,j,qx,qy,e)` by the metric evaluator selected by
`mid` (1 or 2) for the weight and the local Jacobian of the point. -/
def entryValue (mid : Int) (weight : K) (Jpt : Nat → K) (r c i j : Nat) : K :=
  if mid = 1 then weight * Get_ddI1 i j (r + 2 * c)
  else 0.5 * weight * Get_ddI1b Jpt i j (r + 2 * c)

/-- The three nested loops of `SetupGradPA_2D` over the elements and the
quadrature points, each point calling the metric dispatch. -/
def pointLoops {Q1D NE : Nat} (mid : Int) (wt : Nat → Nat → Nat → K)
    (jp : Nat → Nat → Nat → Nat → K) (H : DeviceTensor K (HSizes Q1D NE)) :
    DeviceTensor K (HSizes Q1D NE) :=
  forLoop NE (fun e H =>
    forLoop Q1D (fun qy H =>
      forLoop Q1D (fun qx H =>
        AssembleH mid e qx qy (wt e qx qy) (jp e qx qy) H) H) H) H

/-- The first contraction pass written without tiles: the four sums over `dx`
of `GradX` for the pair `(qx, dy)`, read from the global arrays. -/
def gradXacc (D1D Q1D NE : Nat) (x_ b_ g_ : Nat → K) (e qx dy : Nat) : (K × K) × (K × K) :=
  forLoop D1D (fun dx (uv : (K × K) × (K × K)) =>
    let xx := (Reshape x_ [D1D, D1D, 2, NE]).get [dx, dy, 0, e]
    let xy := (Reshape x_ [D1D, D1D, 2, NE]).get [dx, dy, 1, e]
    ((uv.1.1 + (Reshape b_ [Q1D, D1D]).get [qx, dx] * xx,
      uv.1.2 + (Reshape b_ [Q1D, D1D]).get [qx, dx] * xy),
     (uv.2.1 + (Reshape g_ [Q1D, D1D]).get [qx, dx] * xx,
      uv.2.2 + (Reshape g_ [Q1D, D1D]).get [qx, dx] * xy))) ((0, 0), (0, 0))

/-- The second contraction pass written without tiles: the four sums over `dy`
of `GradY` for the quadrature point `(qx, qy)`. -/
def gradYacc (D1D Q1D NE : Nat) (x_ b_ g_ : Nat → K) (e qx qy : Nat) : (K × K) × (K × K) :=
  forLoop D1D (fun dy (uv : (K × K) × (K × K)) =>
    ((uv.1.1 + (gradXacc D1D Q1D NE x_ b_ g_ e qx dy).2.1
        * (Reshape b_ [Q1D, D1D]).get [qy, dy],
      uv.1.2 + (gradXacc D1D Q1D NE x_ b_ g_ e qx dy).2.2
        * (Reshape b_ [Q1D, D1D]).get [qy, dy]),
     (uv.2.1 + (gradXacc D1D Q1D NE x_ b_ g_ e qx dy).1.1
        * (Reshape g_ [Q1D, D1D]).get [qy, dy],
      uv.2.2 + (gradXacc D1D Q1D NE x_ b_ g_ e qx dy).1.2
        * (Reshape g_ [Q1D, D1D]).get [qy, dy]))) ((0, 0), (0, 0))

/-- The component of the four sums that goes to tile number `a`. -/
def tileOf (a : Nat) (uv : (K × K) × (K × K)) : K :=
  match a with
  | 0 => uv.1.1
  | 1 => uv.2.1
  | 2 => uv.1.2
  | _ => uv.2.2

/-- The gradient `Jpr` at a quadrature point written without tiles. -/
def refJpr (D1D Q1D NE : Nat) (x_ b_ g_ : Nat → K) (e qx qy : Nat) : Nat → K :=
  fun n => match n with
    | 0 => (gradYacc D1D Q1D NE x_ b_ g_ e qx qy).1.1
    | 1 => (gradYacc D1D Q1D NE x_ b_ g_ e qx qy).1.2
    | 2 => (gradYacc D1D Q1D NE x_ b_ g_ e qx qy).2.1
    | 3 => (gradYacc D1D Q1D NE x_ b_ g_ e qx qy).2.2
    | _ => 0

/-- The key `id = (D1D << 4) | Q1D` of `AssembleGradPA_2D` (line 161).  It is
an `int`: the shift and the `or` are made on 32 bits, and the key is given by
its bit pattern, a number below `2 ^ 32` (two's complement, a shift past bit 31
wraps).  The sizes `D1D`, `Q1D` are non-negative `int`s. -/
def kernelId (D1D Q1D : Nat) : Nat :=
  ((D1D <<< 4) ||| Q1D) % 2 ^ 32

/-- Modelled from the spec: the map `KSetupGradPA_2D` built by
`MFEM_REGISTER_TMOP_KERNELS` (`fem/tmop_pa.hpp`, not among the sources), "a
specialization registry mapping a (degree, order) key to a callable kernel
variant": a key (the bit pattern of an `int`) is mapped to the template
arguments `(T_D1D, T_Q1D)` of the instantiation registered under it, if any. -/
abbrev KernelMap : Type := Nat → Option (Nat × Nat)

/-- The kernel instantiation chosen by `AssembleGradPA_2D` and the run-time
sizes passed to it. -/
structure KernelCall where
  /-- Template argument `T_D1D`. -/
  T_D1D : Nat
  /-- Template argument `T_Q1D`. -/
  T_Q1D : Nat
  /-- Template argument `T_MAX`. -/
  T_MAX : Nat
  /-- Run-time argument `d1d`. -/
  d1d : Nat
  /-- Run-time argument `q1d`. -/
  q1d : Nat
  deriving DecidableEq, Repr

/-- The control flow of `TMOP_Integrator::AssembleGradPA_2D`: which kernel is
invoked, or the failure of `MFEM_VERIFY`.  `MAX_D1D` and `MAX_Q1D` are the
compiled maxima of `general/forall.hpp` (not among the sources).  The key `id`
is the 32-bit `int` of line 161, as in `kernelId`. -/
def AssembleGradPA_2D_dispatch (MAX_D1D MAX_Q1D : Nat) (KSetupGradPA_2D : KernelMap)
    (D1D Q1D : Nat) : Except String KernelCall :=
  let id := ((D1D <<< 4) ||| Q1D) % 2 ^ 32
  match KSetupGradPA_2D id with
  | some k => Except.ok ⟨k.1, k.2, 0, 0, 0⟩
  | none =>
    if D1D ≤ MAX_D1D ∧ Q1D ≤ MAX_Q1D then Except.ok ⟨0, 0, 8, D1D, Q1D⟩
    else Except.error ("Max size error!")

/-- The method `TMOP_Integrator::AssembleGradPA_2D(X)`: the content of `PA.A` after the
call, or the failure of `MFEM_VERIFY`. -/
def AssembleGradPA_2D (MAX_D1D MAX_Q1D : Nat) (KSetupGradPA_2D : KernelMap)
    (N : Nat) (M : Int) (D1D Q1D : Nat) (J W B G H : Nat → K) (mn : K) (X : Nat → K) :
    Except String (Nat → K) :=
  match AssembleGradPA_2D_dispatch MAX_D1D MAX_Q1D KSetupGradPA_2D D1D Q1D with
  | Except.ok k =>
    Except.ok (SetupGradPA_2D k.T_D1D k.T_Q1D k.T_MAX X mn M N W B G J H k.d1d k.q1d)
  | Except.error msg => Except.error msg

end Setup

/-! ## Definitions used to state and prove the properties -/

section Support

/-- The identity matrix, stored column by column. -/
def identity2 {K : Type} [Field K] : Nat → K :=
  fun n => if n = 0 ∨ n = 3 then 1 else 0

/-- The nodes of the unit square for bilinear elements (`D1D = 2`), the same
for every element: `X(dx,dy,0,e) = dx`, `X(dx,dy,1,e) = dy`. -/
def unitSquareX : Nat → ℚ :=
  fun n => if n % 8 < 4 then ((n % 2 : Nat) : ℚ) else (((n / 2) % 2 : Nat) : ℚ)

/-- The linear basis at the two quadrature points `1/4`, `3/4`:
`b(q,0) = 1 - ξ_q`, `b(q,1) = ξ_q`. -/
def linearB : Nat → ℚ :=
  fun n => if n = 0 ∨ n = 3 then 3 / 4 else 1 / 4

/-- The derivatives of the linear basis: `g(q,0) = -1`, `g(q,1) = 1`. -/
def linearG : Nat → ℚ :=
  fun n => if n < 2 then -1 else 1

/-- The identity as reference Jacobian at every quadrature point. -/
def identityJ : Nat → ℚ :=
  fun n => identity2 (n % 4)

/-- A registry as `MFEM_REGISTER_TMOP_KERNELS` fills it with the single
specialization `SetupGradPA_2D<2,3>`, filed under its key `0x23`. -/
def registry23 : KernelMap :=
  fun k => if k = kernelId 2 3 then some (2, 3) else none

/-- A cell of `H` belongs to the slot `(qx, qy, e)`. -/
def InSlot (Q1D NE qx qy e k : Nat) : Prop :=
  ∃ i, i < 2 ∧ ∃ j, j < 2 ∧ ∃ r, r < 2 ∧ ∃ c, c < 2 ∧
    k = TensorInd (HSizes Q1D NE) [r, c, i, j, qx, qy, e]

/-- A cell of `H` belongs to a slot within the sizes. -/
def InRange (Q1D NE k : Nat) : Prop :=
  ∃ e, e < NE ∧ ∃ qy, qy < Q1D ∧ ∃ qx, qx < Q1D ∧ InSlot Q1D NE qx qy e k

/-- The matrix `J` with `t` added to its entry number `k`. -/
def bump {K : Type} [Field K] (J : Nat → K) (k : Nat) (t : K) : Nat → K :=
  Function.update J k (J k + t)

/-- The second partial derivative of `f` at `J` with respect to the entries
numbered `k` and `l`. -/
noncomputable def partial2 (f : (Nat → ℝ) → ℝ) (J : Nat → ℝ) (k l : Nat) : ℝ :=
  deriv (fun s => deriv (fun t => f (bump (bump J k s) l t)) 0) 0

/-- The transformer `T` either stores `c` in the cell read by `rd` (when `W`
holds) or leaves that cell as it was. -/
def Writes {σ α : Type} (rd : σ → α) (T : σ → σ) (c : α) (W : Prop) : Prop :=
  ∀ s, (W → rd (T s) = c) ∧ (¬ W → rd (T s) = rd s)

end Support

end mfem

/-!
# Convergence-rate bookkeeping: `tests/convergence/conv_rates.cpp`

The class `ConvergenceRates`.  An `Array<T>` is a list, `Append` adds at the
end.  The finite element objects are outside this file: a call
`RegisterSolution(gf, u)` is given by the three numbers it obtains from them,
`tdofs` (after the MPI reduction), `L2Err = gf->ComputeL2Error(*u)` and
`L2norm = gf->ComputeL2Error(zero)`.  The function `log` of `<cmath>` is a
parameter.
-/

/-- The data members of `ConvergenceRates` that the methods below use. -/
structure ConvergenceRates (K : Type) where
  /-- The member `int counter`. -/
  counter : Nat
  /-- The member `Array<int> ndofs`. -/
  ndofs : List Int
  /-- The member `Array<double> L2Errors`. -/
  L2Errors : List K
  /-- The member `Array<double> L2Rates`. -/
  L2Rates : List K
  /-- The member `Array<double> L2RelErrors`. -/
  L2RelErrors : List K
  /-- The member `Array<double> L2RelRates`. -/
  L2RelRates : List K

namespace ConvergenceRates

variable {K : Type} [Field K]

/-- The state with `counter = 0` and all arrays empty. -/
def empty : ConvergenceRates K :=
  ⟨0, [], [], [], [], []⟩

/-- The method `ConvergenceRates::Clear()`. -/
def Clear (s : ConvergenceRates K) : ConvergenceRates K :=
  { s with counter := 0, L2Rates := [] }

/-- The method `ConvergenceRates::RegisterSolution(GridFunction *gf, Coefficient *u)`.
The reads `L2Errors[counter-1]`, `L2RelErrors[counter-1]` are made after the
`Append`; a read outside the array is given the value 0. -/
def RegisterSolution (log : K → K) (tdofs : Int) (L2Err L2norm : K)
    (s : ConvergenceRates K) : ConvergenceRates K :=
  let ndofs := s.ndofs ++ [tdofs]
  let L2Errors := s.L2Errors ++ [L2Err]
  let val := if s.counter ≠ 0 then log (L2Errors.getD (s.counter - 1) 0 / L2Err) / log 2 else 0
  let L2Rates := s.L2Rates ++ [val]
  let L2RelErrors := s.L2RelErrors ++ [L2Err / L2norm]
  let rval :=
    if s.counter ≠ 0 then
      log (L2RelErrors.getD (s.counter - 1) 0 / (L2Err / L2norm)) / log 2
    else 0
  let L2RelRates := s.L2RelRates ++ [rval]
  ⟨s.counter + 1, ndofs, L2Errors, L2Rates, L2RelErrors, L2RelRates⟩

/-- The method `ConvergenceRates::RegisterSolution(GridFunction *gf, VectorCoefficient *U)`. -/
def RegisterSolution_Vector (log : K → K) (tdofs : Int) (L2Err L2norm : K)
    (s : ConvergenceRates K) : ConvergenceRates K :=
  let ndofs := s.ndofs ++ [tdofs]
  let L2Errors := s.L2Errors ++ [L2Err]
  let val := if s.counter ≠ 0 then log (L2Errors.getD (s.counter - 1) 0 / L2Err) / log 2 else 0
  let L2Rates := s.L2Rates ++ [val]
  let L2RelErrors := s.L2RelErrors ++ [L2Err]
  let rval :=
    if s.counter ≠ 0 then
      log (L2RelErrors.getD (s.counter - 1) 0 / (L2Err / L2norm)) / log 2
    else 0
  let L2RelRates := s.L2RelRates ++ [rval]
  ⟨s.counter + 1, ndofs, L2Errors, L2Rates, L2RelErrors, L2RelRates⟩

/-- The method `ConvergenceRates::GetL2Error(int n)`: the failure of `MFEM_VERIFY`, or the
result of the read `L2Errors[n]`, which is `none` when `n` is not an index of
the array. -/
def GetL2Error (s : ConvergenceRates K) (n : Int) : Except String (Option K) :=
  if n ≤ (s.counter : Int) then
    Except.ok (if 0 ≤ n then s.L2Errors[n.toNat]? else none)
  else Except.error ("Step out of bounds")

/-- The method `ConvergenceRates::GetRates()`. -/
def GetRates (s : ConvergenceRates K) : List K :=
  s.L2Rates

/-- The method `ConvergenceRates::GetL2Errors()`. -/
def GetL2Errors (s : ConvergenceRates K) : List K :=
  s.L2Errors

/-- One registered solution: which overload is called and the numbers it
obtains. -/
structure Solution (K : Type) where
  /-- The overload taking a `VectorCoefficient` is called. -/
  vector : Bool
  /-- The number of true dofs. -/
  tdofs : Int
  /-- The L2 error. -/
  L2Err : K
  /-- The L2 norm. -/
  L2norm : K

/-- A call of `RegisterSolution` for one solution. -/
def register (log : K → K) (s : ConvergenceRates K) (r : Solution K) : ConvergenceRates K :=
  if r.vector then RegisterSolution_Vector log r.tdofs r.L2Err r.L2norm s
  else RegisterSolution log r.tdofs r.L2Err r.L2norm s

/-- The calls of `RegisterSolution` for a sequence of solutions, in order. -/
def registerAll (log : K → K) (rs : List (Solution K)) (s : ConvergenceRates K) :
    ConvergenceRates K :=
  rs.foldl (register log) s

/-- The rate of step `k` for the errors `es`: `0` at the first step, then
`log(e_{k-1} / e_k) / log(2)`. -/
def rateAt (log : K → K) (es : List K) (k : Nat) : K :=
  if k = 0 then 0 else log (es.getD (k - 1) 0 / es.getD k 0) / log 2

end ConvergenceRates

/-!
# Properties of the TMOP kernel
-/

namespace mfem

/-! ## Reading a cell after a nest of stores -/

section Writes

variable {σ α : Type}

theorem forLoop_succ (n : Nat) (body : Nat → σ → σ) (s : σ) :
    forLoop (n + 1) body s = body n (forLoop n body s) := by
  simp [forLoop, List.range_succ, List.foldl_append]

theorem forLoop_zero (body : Nat → σ → σ) (s : σ) : forLoop 0 body s = s := rfl

theorem Writes.congr {rd : σ → α} {T : σ → σ} {c : α} {W W' : Prop}
    (h : Writes rd T c W) (hw : W' ↔ W) : Writes rd T c W' := by
  intro s
  exact ⟨fun w => (h s).1 (hw.1 w), fun w => (h s).2 (fun w' => w (hw.2 w'))⟩

theorem Writes.skip (rd : σ → α) (c : α) : Writes rd (fun s => s) c False :=
  fun _ => ⟨fun w => w.elim, fun _ => rfl⟩

theorem Writes.seq {rd : σ → α} {T₁ T₂ : σ → σ} {c : α} {W₁ W₂ : Prop}
    (h₁ : Writes rd T₁ c W₁) (h₂ : Writes rd T₂ c W₂) :
    Writes rd (fun s => T₂ (T₁ s)) c (W₁ ∨ W₂) := by
  intro s
  by_cases w₂ : W₂
  · exact ⟨fun _ => (h₂ (T₁ s)).1 w₂, fun h => (h (Or.inr w₂)).elim⟩
  · refine ⟨fun h => ?_, fun h => ?_⟩
    · rcases h with w₁ | w
      · rw [(h₂ (T₁ s)).2 w₂]; exact (h₁ s).1 w₁
      · exact (w₂ w).elim
    · rw [(h₂ (T₁ s)).2 w₂]; exact (h₁ s).2 (fun w₁ => h (Or.inl w₁))

theorem Writes.ite {rd : σ → α} {T : σ → σ} {c : α} {W : Prop} (p : Prop)
    [Decidable p] (h : p → Writes rd T c W) :
    Writes rd (fun s => if p then T s else s) c (p ∧ W) := by
  intro s
  by_cases hp : p
  · refine ⟨fun w => ?_, fun w => ?_⟩
    · simp only [if_pos hp]; exact (h hp s).1 w.2
    · simp only [if_pos hp]; exact (h hp s).2 (fun w' => w ⟨hp, w'⟩)
  · exact ⟨fun w => absurd w.1 hp, fun _ => by simp only [if_neg hp]⟩

theorem Writes.loop {rd : σ → α} {n : Nat} {body : Nat → σ → σ} {c : α}
    {W : Nat → Prop} (h : ∀ i, i < n → Writes rd (body i) c (W i)) :
    Writes rd (forLoop n body) c (∃ i, i < n ∧ W i) := by
  induction n with
  | zero =>
    intro s
    refine ⟨?_, fun _ => rfl⟩
    rintro ⟨i, hi, _⟩
    exact absurd hi (Nat.not_lt_zero i)
  | succ n ih =>
    have h₁ := ih (fun i hi => h i (Nat.lt_succ_of_lt hi))
    have h₂ := h n (Nat.lt_succ_self n)
    have hs := Writes.seq h₁ h₂
    intro s
    rw [forLoop_succ]
    refine (Writes.congr hs ?_) s
    constructor
    · rintro ⟨i, hi, w⟩
      rcases Nat.lt_succ_iff_lt_or_eq.1 hi with hlt | heq
      · exact Or.inl ⟨i, hlt, w⟩
      · exact Or.inr (heq ▸ w)
    · rintro (⟨i, hi, w⟩ | w)
      · exact ⟨i, Nat.lt_succ_of_lt hi, w⟩
      · exact ⟨n, Nat.lt_succ_self n, w⟩

theorem Writes.set {K : Type} {sizes : List Nat} (k : Nat) (args : List Nat)
    (v c : K) (h : k = TensorInd sizes args → v = c) :
    Writes (fun H : DeviceTensor K sizes => H.data k) (fun H => H.set args v) c
      (k = TensorInd sizes args) := by
  intro s
  refine ⟨fun w => ?_, fun w => ?_⟩
  · simp [DeviceTensor.set, w, h w]
  · simp [DeviceTensor.set, Function.update_noteq w]

theorem Writes.update {ι : Type} [DecidableEq ι] (p p' : ι) (v c : α)
    (h : p = p' → v = c) :
    Writes (fun s : ι → α => s p) (fun s => Function.update s p' v) c (p = p') := by
  intro s
  refine ⟨fun w => ?_, fun w => ?_⟩
  · show Function.update s p' v p = c
    rw [w, Function.update_same]; exact h w
  · show Function.update s p' v p = s p
    exact Function.update_noteq w v s

/-- Two loops with the same bodies on the iterations that run. -/
theorem forLoop_congr {n : Nat} {body body' : Nat → σ → σ}
    (h : ∀ i, i < n → ∀ s, body i s = body' i s) (s : σ) :
    forLoop n body s = forLoop n body' s := by
  induction n with
  | zero => rfl
  | succ n ih =>
    rw [forLoop_succ, forLoop_succ, ih (fun i hi => h i (Nat.lt_succ_of_lt hi)),
      h n (Nat.lt_succ_self n)]

end Writes

/-! ## The cells of one slot of `H` -/

section EvalFacts

variable {K : Type} [Field K]

/-- The kernel `SetupGradPA_2D` with its sizes `D1D`, `Q1D` and its tile strides `MD1`,
`MQ1` resolved. -/
theorem SetupGradPA_2D_eq (T_D1D T_Q1D T_MAX : Nat) (x_ : Nat → K) (metric_normal : K)
    (mid : Int) (NE : Nat) (w_ b_ g_ j_ h_ : Nat → K) (d1d q1d : Nat) :
    SetupGradPA_2D T_D1D T_Q1D T_MAX x_ metric_normal mid NE w_ b_ g_ j_ h_ d1d q1d
      = (pointLoops mid
          (pointWeight (if T_Q1D ≠ 0 then T_Q1D else q1d) NE metric_normal w_ j_)
          (pointJpt (if T_D1D ≠ 0 then T_D1D else T_MAX)
            (if T_Q1D ≠ 0 then T_Q1D else T_MAX)
            (if T_D1D ≠ 0 then T_D1D else d1d) (if T_Q1D ≠ 0 then T_Q1D else q1d)
            NE x_ b_ g_ j_)
          (Reshape h_ (HSizes (if T_Q1D ≠ 0 then T_Q1D else q1d) NE))).data := rfl

/-- The kernel `SetupGradPA_2D` with its sizes and tile strides given names. -/
theorem SetupGradPA_2D_eq_sizes (T_D1D T_Q1D T_MAX : Nat) (x_ : Nat → K)
    (metric_normal : K) (mid : Int) (NE : Nat) (w_ b_ g_ j_ h_ : Nat → K)
    (d1d q1d D1D Q1D MD1 MQ1 : Nat)
    (hD : D1D = if T_D1D ≠ 0 then T_D1D else d1d)
    (hQ : Q1D = if T_Q1D ≠ 0 then T_Q1D else q1d)
    (hMD : MD1 = if T_D1D ≠ 0 then T_D1D else T_MAX)
    (hMQ : MQ1 = if T_Q1D ≠ 0 then T_Q1D else T_MAX) :
    SetupGradPA_2D T_D1D T_Q1D T_MAX x_ metric_normal mid NE w_ b_ g_ j_ h_ d1d q1d
      = (pointLoops mid (pointWeight Q1D NE metric_normal w_ j_)
          (pointJpt MD1 MQ1 D1D Q1D NE x_ b_ g_ j_)
          (Reshape h_ (HSizes Q1D NE))).data := by
  subst hD hQ hMD hMQ
  rfl

theorem TensorInd_H (Q1D NE r c i j qx qy e : Nat) :
    TensorInd (HSizes Q1D NE) [r, c, i, j, qx, qy, e]
      = r + 2 * (c + 2 * (i + 2 * (j + 2 * (qx + Q1D * (qy + Q1D * e))))) := rfl

/-- Two digits in base `B` determine the number. -/
theorem radix_inj {B x y x' y' : Nat} (hx : x < B) (hx' : x' < B)
    (h : x + B * y = x' + B * y') : x = x' ∧ y = y' := by
  have h1 : (x + B * y) % B = x := by
    rw [Nat.add_mul_mod_self_left]; exact Nat.mod_eq_of_lt hx
  have h2 : (x' + B * y') % B = x' := by
    rw [Nat.add_mul_mod_self_left]; exact Nat.mod_eq_of_lt hx'
  have hxx : x = x' := by rw [← h1, ← h2, h]
  subst hxx
  have hB : 0 < B := Nat.lt_of_le_of_lt (Nat.zero_le _) hx
  exact ⟨rfl, Nat.eq_of_mul_eq_mul_left hB (Nat.add_left_cancel h)⟩

/-- The flat index of `H` determines the entry, for indices within the sizes. -/
theorem TensorInd_H_inj {Q1D NE r c i j qx qy e r' c' i' j' qx' qy' e' : Nat}
    (hr : r < 2) (hc : c < 2) (hi : i < 2) (hj : j < 2) (hqx : qx < Q1D)
    (hqy : qy < Q1D) (hr' : r' < 2) (hc' : c' < 2) (hi' : i' < 2) (hj' : j' < 2)
    (hqx' : qx' < Q1D) (hqy' : qy' < Q1D)
    (h : TensorInd (HSizes Q1D NE) [r, c, i, j, qx, qy, e]
      = TensorInd (HSizes Q1D NE) [r', c', i', j', qx', qy', e']) :
    r = r' ∧ c = c' ∧ i = i' ∧ j = j' ∧ qx = qx' ∧ qy = qy' ∧ e = e' := by
  rw [TensorInd_H, TensorInd_H] at h
  generalize hS : qx + Q1D * (qy + Q1D * e) = S at h
  generalize hS' : qx' + Q1D * (qy' + Q1D * e') = S' at h
  have hSS : S = S' := by omega
  rw [← hS, ← hS'] at hSS
  obtain ⟨h1, h2⟩ := radix_inj hqx hqx' hSS
  obtain ⟨h3, h4⟩ := radix_inj hqy hqy' h2
  refine ⟨by omega, by omega, by omega, by omega, h1, h3, h4⟩

/-- Within one slot the flat index determines `r, c, i, j`. -/
theorem TensorInd_H_slot_inj {Q1D NE r c i j qx qy e r' c' i' j' : Nat}
    (hr : r < 2) (hc : c < 2) (hi : i < 2)
    (hr' : r' < 2) (hc' : c' < 2) (hi' : i' < 2)
    (h : TensorInd (HSizes Q1D NE) [r, c, i, j, qx, qy, e]
      = TensorInd (HSizes Q1D NE) [r', c', i', j', qx, qy, e]) :
    r = r' ∧ c = c' ∧ i = i' ∧ j = j' := by
  rw [TensorInd_H, TensorInd_H] at h
  generalize qx + Q1D * (qy + Q1D * e) = S at h
  refine ⟨by omega, by omega, by omega, by omega⟩

omit [Field K] in
/-- The stores of the four nested loops of an evaluator. -/
theorem evalLoops_writes {Q1D NE : Nat} (e qx qy : Nat) (f : Nat → Nat → Nat → Nat → K)
    (k : Nat) (v : K)
    (hv : ∀ i j r c, i < 2 → j < 2 → r < 2 → c < 2 →
      k = TensorInd (HSizes Q1D NE) [r, c, i, j, qx, qy, e] → f i j r c = v) :
    Writes (fun H : DeviceTensor K (HSizes Q1D NE) => H.data k)
      (fun H => forLoop 2 (fun i H => forLoop 2 (fun j H => forLoop 2 (fun r H =>
        forLoop 2 (fun c H => H.set [r, c, i, j, qx, qy, e] (f i j r c)) H) H) H) H)
      v (InSlot Q1D NE qx qy e k) := by
  unfold InSlot
  refine Writes.loop (fun i hi => ?_)
  refine Writes.loop (fun j hj => ?_)
  refine Writes.loop (fun r hr => ?_)
  refine Writes.loop (fun c hc => ?_)
  exact Writes.set k _ _ _ (hv i j r c hi hj hr hc)

theorem EvalH_001_writes {Q1D NE : Nat} (e qx qy : Nat) (weight : K) (Jpt : Nat → K)
    (k : Nat) (v : K)
    (hv : ∀ i j r c, i < 2 → j < 2 → r < 2 → c < 2 →
      k = TensorInd (HSizes Q1D NE) [r, c, i, j, qx, qy, e] →
      weight * Get_ddI1 i j (r + 2 * c) = v) :
    Writes (fun H : DeviceTensor K (HSizes Q1D NE) => H.data k)
      (EvalH_001 e qx qy weight Jpt) v (InSlot Q1D NE qx qy e k) :=
  evalLoops_writes e qx qy (fun i j r c => weight * Get_ddI1 i j (r + 2 * c)) k v hv

theorem EvalH_002_writes {Q1D NE : Nat} (e qx qy : Nat) (weight : K) (Jpt : Nat → K)
    (k : Nat) (v : K)
    (hv : ∀ i j r c, i < 2 → j < 2 → r < 2 → c < 2 →
      k = TensorInd (HSizes Q1D NE) [r, c, i, j, qx, qy, e] →
      0.5 * weight * Get_ddI1b Jpt i j (r + 2 * c) = v) :
    Writes (fun H : DeviceTensor K (HSizes Q1D NE) => H.data k)
      (EvalH_002 e qx qy weight Jpt) v (InSlot Q1D NE qx qy e k) :=
  evalLoops_writes e qx qy
    (fun i j r c => 0.5 * weight * Get_ddI1b Jpt i j (r + 2 * c)) k v hv

/-- The entry `(r,c,i,j)` of the slot after `EvalH_001`. -/
theorem EvalH_001_get {Q1D NE : Nat} (e qx qy : Nat) (weight : K) (Jpt : Nat → K)
    (H : DeviceTensor K (HSizes Q1D NE)) {r c i j : Nat}
    (hr : r < 2) (hc : c < 2) (hi : i < 2) (hj : j < 2) :
    (EvalH_001 e qx qy weight Jpt H).get [r, c, i, j, qx, qy, e]
      = weight * Get_ddI1 i j (r + 2 * c) := by
  refine ((EvalH_001_writes e qx qy weight Jpt _ _ ?_) H).1
    ⟨i, hi, j, hj, r, hr, c, hc, rfl⟩
  intro i' j' r' c' hi' _ hr' hc' h
  obtain ⟨h1, h2, h3, h4⟩ := TensorInd_H_slot_inj hr hc hi hr' hc' hi' h
  subst h1 h2 h3 h4
  rfl

/-- The entry `(r,c,i,j)` of the slot after `EvalH_002`. -/
theorem EvalH_002_get {Q1D NE : Nat} (e qx qy : Nat) (weight : K) (Jpt : Nat → K)
    (H : DeviceTensor K (HSizes Q1D NE)) {r c i j : Nat}
    (hr : r < 2) (hc : c < 2) (hi : i < 2) (hj : j < 2) :
    (EvalH_002 e qx qy weight Jpt H).get [r, c, i, j, qx, qy, e]
      = 0.5 * weight * Get_ddI1b Jpt i j (r + 2 * c) := by
  refine ((EvalH_002_writes e qx qy weight Jpt _ _ ?_) H).1
    ⟨i, hi, j, hj, r, hr, c, hc, rfl⟩
  intro i' j' r' c' hi' _ hr' hc' h
  obtain ⟨h1, h2, h3, h4⟩ := TensorInd_H_slot_inj hr hc hi hr' hc' hi' h
  subst h1 h2 h3 h4
  rfl

/-- The stores of the metric dispatch at one quadrature point. -/
theorem AssembleH_writes {Q1D NE : Nat} (mid : Int) (e qx qy : Nat) (weight : K)
    (Jpt : Nat → K) (k : Nat) (v : K)
    (hv : ∀ i j r c, i < 2 → j < 2 → r < 2 → c < 2 →
      k = TensorInd (HSizes Q1D NE) [r, c, i, j, qx, qy, e] →
      entryValue mid weight Jpt r c i j = v) :
    Writes (fun H : DeviceTensor K (HSizes Q1D NE) => H.data k)
      (AssembleH mid e qx qy weight Jpt) v
      ((mid = 1 ∨ mid = 2) ∧ InSlot Q1D NE qx qy e k) := by
  have h1 : mid = 1 → Writes (fun H : DeviceTensor K (HSizes Q1D NE) => H.data k)
      (EvalH_001 e qx qy weight Jpt) v (InSlot Q1D NE qx qy e k) := by
    intro hm
    refine EvalH_001_writes e qx qy weight Jpt k v (fun i j r c hi hj hr hc hk => ?_)
    have := hv i j r c hi hj hr hc hk
    simpa [entryValue, hm] using this
  have h2 : mid = 2 → Writes (fun H : DeviceTensor K (HSizes Q1D NE) => H.data k)
      (EvalH_002 e qx qy weight Jpt) v (InSlot Q1D NE qx qy e k) := by
    intro hm
    refine EvalH_002_writes e qx qy weight Jpt k v (fun i j r c hi hj hr hc hk => ?_)
    have := hv i j r c hi hj hr hc hk
    simpa [entryValue, hm] using this
  have e1 := Writes.ite (mid = 1) h1
  have e2 := Writes.ite (mid = 2) h2
  have hs := Writes.seq e1 e2
  refine Writes.congr hs ?_
  constructor
  · rintro ⟨hm | hm, hs⟩
    · exact Or.inl ⟨hm, hs⟩
    · exact Or.inr ⟨hm, hs⟩
  · rintro (⟨hm, hs⟩ | ⟨hm, hs⟩)
    · exact ⟨Or.inl hm, hs⟩
    · exact ⟨Or.inr hm, hs⟩

/-- The stores of the loops of `SetupGradPA_2D`. -/
theorem pointLoops_writes {Q1D NE : Nat} (mid : Int) (wt : Nat → Nat → Nat → K)
    (jp : Nat → Nat → Nat → Nat → K) (k : Nat) (v : K)
    (hv : ∀ e qx qy i j r c, e < NE → qx < Q1D → qy < Q1D → i < 2 → j < 2 → r < 2 →
      c < 2 → k = TensorInd (HSizes Q1D NE) [r, c, i, j, qx, qy, e] →
      entryValue mid (wt e qx qy) (jp e qx qy) r c i j = v) :
    Writes (fun H : DeviceTensor K (HSizes Q1D NE) => H.data k)
      (pointLoops mid wt jp) v ((mid = 1 ∨ mid = 2) ∧ InRange Q1D NE k) := by
  have h : Writes (fun H : DeviceTensor K (HSizes Q1D NE) => H.data k)
      (pointLoops mid wt jp) v
      (∃ e, e < NE ∧ ∃ qy, qy < Q1D ∧ ∃ qx, qx < Q1D ∧
        ((mid = 1 ∨ mid = 2) ∧ InSlot Q1D NE qx qy e k)) := by
    refine Writes.loop (fun e he => ?_)
    refine Writes.loop (fun qy hqy => ?_)
    refine Writes.loop (fun qx hqx => ?_)
    exact AssembleH_writes mid e qx qy _ _ k v
      (fun i j r c hi hj hr hc hk => hv e qx qy i j r c he hqx hqy hi hj hr hc hk)
  refine Writes.congr h ?_
  unfold InRange
  constructor
  · rintro ⟨hm, e, he, qy, hqy, qx, hqx, hs⟩
    exact ⟨e, he, qy, hqy, qx, hqx, hm, hs⟩
  · rintro ⟨e, he, qy, hqy, qx, hqx, hm, hs⟩
    exact ⟨hm, e, he, qy, hqy, qx, hqx, hs⟩

/-- The entry of `H` after the loops of `SetupGradPA_2D`, for a recognized
metric id and indices within the sizes. -/
theorem pointLoops_get {Q1D NE : Nat} (mid : Int) (wt : Nat → Nat → Nat → K)
    (jp : Nat → Nat → Nat → Nat → K) (H : DeviceTensor K (HSizes Q1D NE))
    {r c i j qx qy e : Nat} (hmid : mid = 1 ∨ mid = 2)
    (hr : r < 2) (hc : c < 2) (hi : i < 2) (hj : j < 2) (hqx : qx < Q1D)
    (hqy : qy < Q1D) (he : e < NE) :
    (pointLoops mid wt jp H).get [r, c, i, j, qx, qy, e]
      = entryValue mid (wt e qx qy) (jp e qx qy) r c i j := by
  refine ((pointLoops_writes mid wt jp _ _ ?_) H).1
    ⟨hmid, e, he, qy, hqy, qx, hqx, i, hi, j, hj, r, hr, c, hc, rfl⟩
  intro e' qx' qy' i' j' r' c' _ hqx' hqy' hi' hj' hr' hc' h
  obtain ⟨h1, h2, h3, h4, h5, h6, h7⟩ :=
    TensorInd_H_inj hr hc hi hj hqx hqy hr' hc' hi' hj' hqx' hqy' h
  subst h1 h2 h3 h4 h5 h6 h7
  rfl

/-- A cell of `H` that the loops of `SetupGradPA_2D` do not store to keeps its
content: any cell when the metric id is not recognized, and the cells outside
the slots otherwise. -/
theorem pointLoops_frame {Q1D NE : Nat} (mid : Int) (wt : Nat → Nat → Nat → K)
    (jp : Nat → Nat → Nat → Nat → K) (H : DeviceTensor K (HSizes Q1D NE)) (k : Nat)
    (h : ¬ ((mid = 1 ∨ mid = 2) ∧ InRange Q1D NE k)) :
    (pointLoops mid wt jp H).data k = H.data k := by
  have hex : ∃ v : K,
      ∀ e qx qy i j r c, e < NE → qx < Q1D → qy < Q1D → i < 2 → j < 2 → r < 2 →
        c < 2 → k = TensorInd (HSizes Q1D NE) [r, c, i, j, qx, qy, e] →
        entryValue mid (wt e qx qy) (jp e qx qy) r c i j = v := by
    rcases Classical.em (InRange Q1D NE k) with hr | hr
    · obtain ⟨e, he, qy, hqy, qx, hqx, i, hi, j, hj, r, hr', c, hc, hk⟩ := hr
      refine ⟨entryValue mid (wt e qx qy) (jp e qx qy) r c i j, ?_⟩
      intro e' qx' qy' i' j' r' c' _ hqx' hqy' hi' hj' hr'' hc' h'
      rw [hk] at h'
      obtain ⟨h1, h2, h3, h4, h5, h6, h7⟩ :=
        TensorInd_H_inj hr' hc hi hj hqx hqy hr'' hc' hi' hj' hqx' hqy' h'
      subst h1 h2 h3 h4 h5 h6 h7
      rfl
    · refine ⟨0, ?_⟩
      intro e' qx' qy' i' j' r' c' he' hqx' hqy' hi' hj' hr'' hc' h'
      exact absurd
        ⟨e', he', qy', hqy', qx', hqx', i', hi', j', hj', r', hr'', c', hc', h'⟩ hr
  obtain ⟨v, hv⟩ := hex
  exact ((pointLoops_writes mid wt jp k v hv) H).2 h

end EvalFacts

/-! ## The shared-memory tiles -/

section TileFacts

variable {K : Type} [Field K]

omit [Field K] in
/-- Reading a tile cell after two nested loops whose iteration `(x, y)` stores
`val a x y` in cell `x + S * y` of the tiles `a < A`. -/
theorem tileLoops_read (A N M S : Nat) (T : Nat → Nat → Tiles K → Tiles K)
    (val : Nat → Nat → Nat → K)
    (hT : ∀ x y p v, (∀ a, a < A → p = (a, x + S * y) → val a x y = v) →
      Writes (fun s : Tiles K => s p) (T x y) v (∃ a, a < A ∧ p = (a, x + S * y)))
    (hMS : M ≤ S) (s : Tiles K) {a x y : Nat} (ha : a < A) (hx : x < M) (hy : y < N) :
    forLoop N (fun y s => forLoop M (fun x s => T x y s) s) s (a, x + S * y)
      = val a x y := by
  have h : Writes (fun s : Tiles K => s (a, x + S * y))
      (forLoop N (fun y s => forLoop M (fun x s => T x y s) s)) (val a x y)
      (∃ y', y' < N ∧ ∃ x', x' < M ∧ ∃ a', a' < A ∧ (a, x + S * y) = (a', x' + S * y')) := by
    refine Writes.loop (fun y' _ => ?_)
    refine Writes.loop (fun x' hx' => ?_)
    refine hT x' y' _ _ (fun a' _ hp => ?_)
    have h1 : a = a' := congrArg Prod.fst hp
    have h2 : x + S * y = x' + S * y' := congrArg Prod.snd hp
    obtain ⟨h3, h4⟩ := radix_inj (Nat.lt_of_lt_of_le hx hMS) (Nat.lt_of_lt_of_le hx' hMS) h2
    subst h1 h3 h4
    rfl
  exact (h s).1 ⟨y, hy, x, hx, a, ha, rfl⟩

omit [Field K] in
/-- The stores of one iteration that fills two tiles. -/
theorem writes_two (m : Nat) (v0 v1 : K) (p : Nat × Nat) (v : K)
    (h : ∀ a, a < 2 → p = (a, m) → (match a with | 0 => v0 | _ => v1) = v) :
    Writes (fun s : Tiles K => s p)
      (fun s => Function.update (Function.update s (0, m) v0) (1, m) v1) v
      (∃ a, a < 2 ∧ p = (a, m)) := by
  have e0 := Writes.update p (0, m) v0 v (h 0 (by decide))
  have e1 := Writes.update p (1, m) v1 v (h 1 (by decide))
  refine Writes.congr (Writes.seq e0 e1) ?_
  constructor
  · rintro ⟨a, ha, hp⟩
    interval_cases a
    · exact Or.inl hp
    · exact Or.inr hp
  · rintro (hp | hp)
    · exact ⟨0, by decide, hp⟩
    · exact ⟨1, by decide, hp⟩

omit [Field K] in
/-- The stores of one iteration that fills four tiles. -/
theorem writes_four (m : Nat) (v0 v1 v2 v3 : K) (p : Nat × Nat) (v : K)
    (h : ∀ a, a < 4 → p = (a, m) →
      (match a with | 0 => v0 | 1 => v1 | 2 => v2 | _ => v3) = v) :
    Writes (fun s : Tiles K => s p)
      (fun s => Function.update (Function.update (Function.update
        (Function.update s (0, m) v0) (1, m) v1) (2, m) v2) (3, m) v3) v
      (∃ a, a < 4 ∧ p = (a, m)) := by
  have e0 := Writes.update p (0, m) v0 v (h 0 (by decide))
  have e1 := Writes.update p (1, m) v1 v (h 1 (by decide))
  have e2 := Writes.update p (2, m) v2 v (h 2 (by decide))
  have e3 := Writes.update p (3, m) v3 v (h 3 (by decide))
  refine Writes.congr (Writes.seq (Writes.seq (Writes.seq e0 e1) e2) e3) ?_
  constructor
  · rintro ⟨a, ha, hp⟩
    interval_cases a
    · exact Or.inl (Or.inl (Or.inl hp))
    · exact Or.inl (Or.inl (Or.inr hp))
    · exact Or.inl (Or.inr hp)
    · exact Or.inr hp
  · rintro (((hp | hp) | hp) | hp)
    · exact ⟨0, by decide, hp⟩
    · exact ⟨1, by decide, hp⟩
    · exact ⟨2, by decide, hp⟩
    · exact ⟨3, by decide, hp⟩

omit [Field K] in
/-- The same with the loop over the fast index `x` outside. -/
theorem tileLoops_read_swap (A N M S : Nat) (T : Nat → Nat → Tiles K → Tiles K)
    (val : Nat → Nat → Nat → K)
    (hT : ∀ x y p v, (∀ a, a < A → p = (a, x + S * y) → val a x y = v) →
      Writes (fun s : Tiles K => s p) (T x y) v (∃ a, a < A ∧ p = (a, x + S * y)))
    (hMS : M ≤ S) (s : Tiles K) {a x y : Nat} (ha : a < A) (hx : x < M) (hy : y < N) :
    forLoop M (fun x s => forLoop N (fun y s => T x y s) s) s (a, x + S * y)
      = val a x y := by
  have h : Writes (fun s : Tiles K => s (a, x + S * y))
      (forLoop M (fun x s => forLoop N (fun y s => T x y s) s)) (val a x y)
      (∃ x', x' < M ∧ ∃ y', y' < N ∧ ∃ a', a' < A ∧ (a, x + S * y) = (a', x' + S * y')) := by
    refine Writes.loop (fun x' hx' => ?_)
    refine Writes.loop (fun y' _ => ?_)
    refine hT x' y' _ _ (fun a' _ hp => ?_)
    have h1 : a = a' := congrArg Prod.fst hp
    have h2 : x + S * y = x' + S * y' := congrArg Prod.snd hp
    obtain ⟨h3, h4⟩ := radix_inj (Nat.lt_of_lt_of_le hx hMS) (Nat.lt_of_lt_of_le hx' hMS) h2
    subst h1 h3 h4
    rfl
  exact (h s).1 ⟨x, hx, y, hy, a, ha, rfl⟩

omit [Field K] in
/-- The kernel `LoadX` puts the nodes of element `e` in the tiles, for `D1D ≤ MD1`. -/
theorem LoadX_read {sz : List Nat} (MD1 e D1D : Nat) (X : DeviceTensor K sz)
    (s : Tiles K) (hM : D1D ≤ MD1) {c dx dy : Nat} (hc : c < 2) (hdx : dx < D1D)
    (hdy : dy < D1D) :
    LoadX MD1 e D1D X s (c, dx + MD1 * dy) = X.get [dx, dy, c, e] := by
  have h := tileLoops_read 2 D1D D1D MD1
    (fun dx dy s => Function.update (Function.update s (0, dx + MD1 * dy)
      (X.get [dx, dy, 0, e])) (1, dx + MD1 * dy) (X.get [dx, dy, 1, e]))
    (fun a dx dy => match a with | 0 => X.get [dx, dy, 0, e] | _ => X.get [dx, dy, 1, e])
    (fun _ _ p v hv => writes_two _ _ _ p v hv) hM s hc hdx hdy
  rw [show LoadX MD1 e D1D X s (c, dx + MD1 * dy) = _ from h]
  interval_cases c <;> rfl

omit [Field K] in
/-- The kernel `LoadBG` puts the transposed basis tables in the tiles, for `D1D ≤ MD1`. -/
theorem LoadBG_read {sz : List Nat} (MD1 MQ1 D1D Q1D : Nat) (b g : DeviceTensor K sz)
    (s : Tiles K) (hM : D1D ≤ MD1) {a d q : Nat} (ha : a < 2) (hd : d < D1D)
    (hq : q < Q1D) :
    LoadBG MD1 MQ1 D1D Q1D b g s (a, d + MD1 * q)
      = if a = 0 then b.get [q, d] else g.get [q, d] := by
  have h := tileLoops_read_swap 2 Q1D D1D MD1
    (fun d q s => Function.update (Function.update s (0, d + MD1 * q)
      (b.get [q, d])) (1, d + MD1 * q) (g.get [q, d]))
    (fun a d q => match a with | 0 => b.get [q, d] | _ => g.get [q, d])
    (fun _ _ p v hv => writes_two _ _ _ p v hv) hM s ha hd hq
  rw [show LoadBG MD1 MQ1 D1D Q1D b g s (a, d + MD1 * q) = _ from h]
  interval_cases a <;> rfl

/-- The kernel `GradX` puts the four sums over `dx` in the tiles, for `Q1D ≤ MQ1`. -/
theorem GradX_read (MD1 MQ1 D1D Q1D : Nat) (sBG sX s : Tiles K) (hM : Q1D ≤ MQ1)
    {a qx dy : Nat} (ha : a < 4) (hqx : qx < Q1D) (hdy : dy < D1D) :
    GradX MD1 MQ1 D1D Q1D sBG sX s (a, qx + MQ1 * dy)
      = tileOf a (forLoop D1D (fun dx (uv : (K × K) × (K × K)) =>
          ((uv.1.1 + sBG (0, dx + MD1 * qx) * sX (0, dx + MD1 * dy),
            uv.1.2 + sBG (0, dx + MD1 * qx) * sX (1, dx + MD1 * dy)),
           (uv.2.1 + sBG (1, dx + MD1 * qx) * sX (0, dx + MD1 * dy),
            uv.2.2 + sBG (1, dx + MD1 * qx) * sX (1, dx + MD1 * dy))))
          ((0, 0), (0, 0))) :=
  tileLoops_read 4 D1D Q1D MQ1 _
    (fun a qx dy => tileOf a (forLoop D1D (fun dx (uv : (K × K) × (K × K)) =>
          ((uv.1.1 + sBG (0, dx + MD1 * qx) * sX (0, dx + MD1 * dy),
            uv.1.2 + sBG (0, dx + MD1 * qx) * sX (1, dx + MD1 * dy)),
           (uv.2.1 + sBG (1, dx + MD1 * qx) * sX (0, dx + MD1 * dy),
            uv.2.2 + sBG (1, dx + MD1 * qx) * sX (1, dx + MD1 * dy))))
          ((0, 0), (0, 0))))
    (fun _ _ p v hv => writes_four _ _ _ _ _ p v hv) hM s ha hqx hdy

/-- The kernel `GradY` puts the four sums over `dy` in the tiles, for `Q1D ≤ MQ1`. -/
theorem GradY_read (MD1 MQ1 D1D Q1D : Nat) (sBG sDQ s : Tiles K) (hM : Q1D ≤ MQ1)
    {a qx qy : Nat} (ha : a < 4) (hqx : qx < Q1D) (hqy : qy < Q1D) :
    GradY MD1 MQ1 D1D Q1D sBG sDQ s (a, qx + MQ1 * qy)
      = tileOf a (forLoop D1D (fun dy (uv : (K × K) × (K × K)) =>
          ((uv.1.1 + sDQ (1, qx + MQ1 * dy) * sBG (0, dy + MD1 * qy),
            uv.1.2 + sDQ (3, qx + MQ1 * dy) * sBG (0, dy + MD1 * qy)),
           (uv.2.1 + sDQ (0, qx + MQ1 * dy) * sBG (1, dy + MD1 * qy),
            uv.2.2 + sDQ (2, qx + MQ1 * dy) * sBG (1, dy + MD1 * qy))))
          ((0, 0), (0, 0))) :=
  tileLoops_read 4 Q1D Q1D MQ1 _
    (fun a qx qy => tileOf a (forLoop D1D (fun dy (uv : (K × K) × (K × K)) =>
          ((uv.1.1 + sDQ (1, qx + MQ1 * dy) * sBG (0, dy + MD1 * qy),
            uv.1.2 + sDQ (3, qx + MQ1 * dy) * sBG (0, dy + MD1 * qy)),
           (uv.2.1 + sDQ (0, qx + MQ1 * dy) * sBG (1, dy + MD1 * qy),
            uv.2.2 + sDQ (2, qx + MQ1 * dy) * sBG (1, dy + MD1 * qy))))
          ((0, 0), (0, 0))))
    (fun _ _ p v hv => writes_four _ _ _ _ _ p v hv) hM s ha hqx hqy

/-- The sums of `GradX` over the loaded tiles are the sums over the global
arrays. -/
theorem gradX_tiles (MD1 MQ1 D1D Q1D NE : Nat) (x_ b_ g_ : Nat → K) (e : Nat)
    (hD : D1D ≤ MD1) {qx dy : Nat} (hqx : qx < Q1D) (hdy : dy < D1D) :
    forLoop D1D (fun dx (uv : (K × K) × (K × K)) =>
      ((uv.1.1 + LoadBG MD1 MQ1 D1D Q1D (Reshape b_ [Q1D, D1D]) (Reshape g_ [Q1D, D1D])
            Tiles.fresh (0, dx + MD1 * qx)
          * LoadX MD1 e D1D (Reshape x_ [D1D, D1D, 2, NE]) Tiles.fresh (0, dx + MD1 * dy),
        uv.1.2 + LoadBG MD1 MQ1 D1D Q1D (Reshape b_ [Q1D, D1D]) (Reshape g_ [Q1D, D1D])
            Tiles.fresh (0, dx + MD1 * qx)
          * LoadX MD1 e D1D (Reshape x_ [D1D, D1D, 2, NE]) Tiles.fresh (1, dx + MD1 * dy)),
       (uv.2.1 + LoadBG MD1 MQ1 D1D Q1D (Reshape b_ [Q1D, D1D]) (Reshape g_ [Q1D, D1D])
            Tiles.fresh (1, dx + MD1 * qx)
          * LoadX MD1 e D1D (Reshape x_ [D1D, D1D, 2, NE]) Tiles.fresh (0, dx + MD1 * dy),
        uv.2.2 + LoadBG MD1 MQ1 D1D Q1D (Reshape b_ [Q1D, D1D]) (Reshape g_ [Q1D, D1D])
            Tiles.fresh (1, dx + MD1 * qx)
          * LoadX MD1 e D1D (Reshape x_ [D1D, D1D, 2, NE]) Tiles.fresh (1, dx + MD1 * dy))))
      ((0, 0), (0, 0))
    = gradXacc D1D Q1D NE x_ b_ g_ e qx dy := by
  unfold gradXacc
  refine forLoop_congr (fun dx hdx uv => ?_) _
  rw [LoadBG_read MD1 MQ1 D1D Q1D _ _ _ hD (by decide : 0 < 2) hdx hqx,
    LoadBG_read MD1 MQ1 D1D Q1D _ _ _ hD (by decide : 1 < 2) hdx hqx,
    LoadX_read MD1 e D1D _ _ hD (by decide : 0 < 2) hdx hdy,
    LoadX_read MD1 e D1D _ _ hD (by decide : 1 < 2) hdx hdy]
  rfl

/-- The tiles `s_QQ` hold the sums of the two contraction passes, for
`D1D ≤ MD1` and `Q1D ≤ MQ1`. -/
theorem elementQQ_read (MD1 MQ1 D1D Q1D NE : Nat) (x_ b_ g_ : Nat → K) (e : Nat)
    (hD : D1D ≤ MD1) (hQ : Q1D ≤ MQ1) {a qx qy : Nat} (ha : a < 4) (hqx : qx < Q1D)
    (hqy : qy < Q1D) :
    elementQQ MD1 MQ1 D1D Q1D NE x_ b_ g_ e (a, qx + MQ1 * qy)
      = tileOf a (gradYacc D1D Q1D NE x_ b_ g_ e qx qy) := by
  unfold elementQQ
  rw [GradY_read MD1 MQ1 D1D Q1D _ _ _ hQ ha hqx hqy]
  congr 1
  unfold gradYacc
  refine forLoop_congr (fun dy hdy uv => ?_) _
  rw [GradX_read MD1 MQ1 D1D Q1D _ _ _ hQ (by decide : 0 < 4) hqx hdy,
    GradX_read MD1 MQ1 D1D Q1D _ _ _ hQ (by decide : 1 < 4) hqx hdy,
    GradX_read MD1 MQ1 D1D Q1D _ _ _ hQ (by decide : 2 < 4) hqx hdy,
    GradX_read MD1 MQ1 D1D Q1D _ _ _ hQ (by decide : 3 < 4) hqx hdy,
    gradX_tiles MD1 MQ1 D1D Q1D NE x_ b_ g_ e hD hqx hdy,
    LoadBG_read MD1 MQ1 D1D Q1D _ _ _ hD (by decide : 0 < 2) hdy hqy,
    LoadBG_read MD1 MQ1 D1D Q1D _ _ _ hD (by decide : 1 < 2) hdy hqy]
  rfl

/-- The gradient `Jpr` computed through the tiles does not depend on the tile
strides, for `D1D ≤ MD1` and `Q1D ≤ MQ1`. -/
theorem pointJpr_eq_ref (MD1 MQ1 D1D Q1D NE : Nat) (x_ b_ g_ : Nat → K) (e : Nat)
    (hD : D1D ≤ MD1) (hQ : Q1D ≤ MQ1) {qx qy : Nat} (hqx : qx < Q1D) (hqy : qy < Q1D) :
    pointJpr MD1 MQ1 D1D Q1D NE x_ b_ g_ e qx qy = refJpr D1D Q1D NE x_ b_ g_ e qx qy := by
  funext n
  have h0 := elementQQ_read MD1 MQ1 D1D Q1D NE x_ b_ g_ e hD hQ (by decide : 0 < 4) hqx hqy
  have h1 := elementQQ_read MD1 MQ1 D1D Q1D NE x_ b_ g_ e hD hQ (by decide : 1 < 4) hqx hqy
  have h2 := elementQQ_read MD1 MQ1 D1D Q1D NE x_ b_ g_ e hD hQ (by decide : 2 < 4) hqx hqy
  have h3 := elementQQ_read MD1 MQ1 D1D Q1D NE x_ b_ g_ e hD hQ (by decide : 3 < 4) hqx hqy
  unfold pointJpr PullGradXY refJpr
  match n with
  | 0 => exact h0
  | 1 => exact h2
  | 2 => exact h1
  | 3 => exact h3
  | _ + 4 => rfl

end TileFacts

/-! ## Derivatives of the invariants with respect to the matrix entries -/

section Calculus

variable {K : Type} [Field K]

theorem bump_entry (J : Nat → K) (k l : Nat) (s : K) :
    bump J k s l = J l + delta k l * s := by
  unfold bump delta
  by_cases h : k = l
  · subst h; simp
  · simp [h, Function.update_noteq (Ne.symm h)]

theorem I1_bump (J : Nat → K) {l : Nat} (hl : l < 4) (t : K) :
    Get_I1 (bump J l t) = Get_I1 J + 2 * J l * t + t * t := by
  interval_cases l <;> simp [Get_I1, bump_entry, delta] <;> ring

theorem I2b_bump (J : Nat → K) {l : Nat} (hl : l < 4) (t : K) :
    Get_I2b (bump J l t) = Get_I2b J + Get_dI2b J l * t := by
  interval_cases l <;> simp [Get_I2b, Get_dI2b, bump_entry, delta] <;> ring

theorem dI2b_bump (J : Nat → K) {k l : Nat} (hk : k < 4) (hl : l < 4) (s : K) :
    Get_dI2b (bump J k s) l = Get_dI2b J l + ddI2b k l * s := by
  interval_cases k <;> interval_cases l <;>
    simp [Get_dI2b, ddI2b, bump_entry, delta] <;> ring

theorem hasDerivAt_quot (a b c d : ℝ) (hc : c ≠ 0) :
    HasDerivAt (fun t : ℝ => (a + b * t + t * t) / (c + d * t))
      ((b * c - a * d) / c ^ 2) 0 := by
  have h1 : HasDerivAt (fun t : ℝ => b * t) b 0 := by
    simpa using (hasDerivAt_id (0 : ℝ)).const_mul b
  have h2 : HasDerivAt (fun t : ℝ => t * t) (1 * 0 + 0 * 1) 0 :=
    (hasDerivAt_id (0 : ℝ)).mul (hasDerivAt_id (0 : ℝ))
  have h3 : HasDerivAt (fun t : ℝ => d * t) d 0 := by
    simpa using (hasDerivAt_id (0 : ℝ)).const_mul d
  have h := ((h1.const_add a).add h2).div (h3.const_add c) (by simpa using hc)
  convert h using 1
  simp

/-- The first partial derivative of `I1` with respect to entry `l`. -/
theorem hasDerivAt_I1 (J : Nat → ℝ) {l : Nat} (hl : l < 4) :
    HasDerivAt (fun t : ℝ => Get_I1 (bump J l t)) (Get_dI1 J l) 0 := by
  have h := hasDerivAt_quot (Get_I1 J) (2 * J l) 1 0 one_ne_zero
  have hf : (fun t : ℝ => Get_I1 (bump J l t))
      = fun t : ℝ => (Get_I1 J + 2 * J l * t + t * t) / (1 + 0 * t) := by
    funext t; rw [I1_bump J hl]; simp
  rw [hf]
  convert h using 1
  simp [Get_dI1]

/-- The first partial derivative of `I1b` with respect to entry `l`, where the
determinant does not vanish. -/
theorem hasDerivAt_I1b (J : Nat → ℝ) {l : Nat} (hl : l < 4) (hdet : Get_I2b J ≠ 0) :
    HasDerivAt (fun t : ℝ => Get_I1b (bump J l t))
      ((Get_dI1 J l * Get_I2b J - Get_I1 J * Get_dI2b J l) / Get_I2b J ^ 2) 0 := by
  have h := hasDerivAt_quot (Get_I1 J) (2 * J l) (Get_I2b J) (Get_dI2b J l) hdet
  have hf : (fun t : ℝ => Get_I1b (bump J l t))
      = fun t : ℝ => (Get_I1 J + 2 * J l * t + t * t)
          / (Get_I2b J + Get_dI2b J l * t) := by
    funext t; rw [Get_I1b, I1_bump J hl, I2b_bump J hl]
  rw [hf]
  exact h

/-- The table `ddI1` is the second derivative of the squared Frobenius norm. -/
theorem partial2_I1 (J : Nat → ℝ) (k : Nat) {l : Nat} (hl : l < 4) :
    partial2 Get_I1 J k l = 2 * delta k l := by
  unfold partial2
  have hin : (fun s : ℝ => deriv (fun t : ℝ => Get_I1 (bump (bump J k s) l t)) 0)
      = fun s : ℝ => 2 * J l + (2 * delta k l) * s := by
    funext s
    rw [(hasDerivAt_I1 (bump J k s) hl).deriv, Get_dI1, bump_entry]
    ring
  rw [hin]
  have h : HasDerivAt (fun s : ℝ => 2 * J l + (2 * delta k l) * s) (2 * delta k l) 0 := by
    have h1 : HasDerivAt (fun s : ℝ => (2 * delta k l) * s) (2 * delta k l) 0 := by
      simpa using (hasDerivAt_id (0 : ℝ)).const_mul (2 * delta k l : ℝ)
    exact h1.const_add _
  exact h.deriv

theorem hasDerivAt_quot2 (a δ D p N b q cc : ℝ) (hD : D ≠ 0) :
    HasDerivAt
      (fun s : ℝ => (2 * ((a + δ * s) * (D + p * s))
        - (N + 2 * b * s + s * s) * (q + cc * s)) / (D + p * s) ^ 2)
      (2 * δ / D - (2 * b * q + 2 * a * p) / (D * D) - N * cc / (D * D)
        + 2 * N * p * q / (D * D * D)) 0 := by
  have lin : ∀ u v : ℝ, HasDerivAt (fun s : ℝ => u + v * s) v 0 := by
    intro u v
    have h1 : HasDerivAt (fun s : ℝ => v * s) v 0 := by
      simpa using (hasDerivAt_id (0 : ℝ)).const_mul v
    exact h1.const_add u
  have hsq : HasDerivAt (fun s : ℝ => s * s) (1 * 0 + 0 * 1) 0 :=
    (hasDerivAt_id (0 : ℝ)).mul (hasDerivAt_id (0 : ℝ))
  have hC : HasDerivAt (fun s : ℝ => N + 2 * b * s + s * s) (2 * b + (1 * 0 + 0 * 1)) 0 :=
    (lin N (2 * b)).add hsq
  have hnum := (((lin a δ).mul (lin D p)).const_mul 2).sub (hC.mul (lin q cc))
  have hden := (lin D p).pow 2
  have h := hnum.div hden (by simpa using hD)
  convert h using 1
  field_simp
  ring

/-- The table `ddI1b` is the second derivative of `I1b = I1 / det`, where the determinant
does not vanish. -/
theorem partial2_I1b (J : Nat → ℝ) {k l : Nat} (hk : k < 4) (hl : l < 4)
    (hdet : Get_I2b J ≠ 0) :
    partial2 Get_I1b J k l
      = 2 * delta k l / Get_I2b J
        - (Get_dI1 J k * Get_dI2b J l + Get_dI1 J l * Get_dI2b J k)
            / (Get_I2b J * Get_I2b J)
        - Get_I1 J * ddI2b k l / (Get_I2b J * Get_I2b J)
        + 2 * Get_I1 J * Get_dI2b J k * Get_dI2b J l
            / (Get_I2b J * Get_I2b J * Get_I2b J) := by
  unfold partial2
  have hcont : ContinuousAt (fun s : ℝ => Get_I2b J + Get_dI2b J k * s) 0 :=
    (continuous_const.add (continuous_const.mul continuous_id)).continuousAt
  have hev : ∀ᶠ s in nhds (0 : ℝ), Get_I2b J + Get_dI2b J k * s ≠ 0 :=
    hcont.eventually_ne (by simpa using hdet)
  have heq : (fun s : ℝ => deriv (fun t : ℝ => Get_I1b (bump (bump J k s) l t)) 0)
      =ᶠ[nhds 0] fun s : ℝ =>
        (2 * ((J l + delta k l * s) * (Get_I2b J + Get_dI2b J k * s))
          - (Get_I1 J + 2 * J k * s + s * s) * (Get_dI2b J l + ddI2b k l * s))
          / (Get_I2b J + Get_dI2b J k * s) ^ 2 := by
    filter_upwards [hev] with s hs
    have hs' : Get_I2b (bump J k s) ≠ 0 := by rw [I2b_bump J hk]; exact hs
    rw [(hasDerivAt_I1b (bump J k s) hl hs').deriv, Get_dI1, bump_entry,
      I2b_bump J hk, I1_bump J hk, dI2b_bump J hk hl]
    ring
  rw [heq.deriv_eq,
    (hasDerivAt_quot2 (J l) (delta k l) (Get_I2b J) (Get_dI2b J k) (Get_I1 J) (J k)
      (Get_dI2b J l) (ddI2b k l) hdet).deriv]
  simp only [Get_dI1]

end Calculus

/-! ## Closed forms and symmetry of the evaluators -/

section EvaluatorTheorems

theorem delta_entry {K : Type} [Field K] {r c i j : Nat} (hr : r < 2) (hi : i < 2) :
    (delta (r + 2 * c) (i + 2 * j) : K) = delta i r * delta j c := by
  unfold delta
  by_cases h1 : i = r <;> by_cases h2 : j = c <;> simp [h1, h2] <;> omega

theorem delta_symm {K : Type} [Field K] (a b : Nat) : (delta a b : K) = delta b a := by
  unfold delta
  by_cases h : a = b
  · simp [h]
  · simp [h, Ne.symm h]

theorem Get_ddI1_entry {K : Type} [Field K] {r : Nat} (c i j : Nat) (hr : r < 2) :
    (Get_ddI1 i j (r + 2 * c) : K) = 2 * delta i r * delta j c := by
  have h1 : (r + 2 * c) % 2 = r := by omega
  have h2 : (r + 2 * c) / 2 = c := by omega
  simp [Get_ddI1, h1, h2]

theorem ddI2b_symm {K : Type} [Field K] (k l : Nat) : (ddI2b k l : K) = ddI2b l k := by
  unfold ddI2b
  have h1 : ((k = 0 ∧ l = 3) ∨ (k = 3 ∧ l = 0)) ↔ ((l = 0 ∧ k = 3) ∨ (l = 3 ∧ k = 0)) := by
    omega
  have h2 : ((k = 1 ∧ l = 2) ∨ (k = 2 ∧ l = 1)) ↔ ((l = 1 ∧ k = 2) ∨ (l = 2 ∧ k = 1)) := by
    omega
  simp only [h1, h2]

/-- C1. Metric 001 closed form: after `EvalH_001`, for every weight, every local
Jacobian `Jpt` and every slot `(e,qx,qy)`, the entry `H(r,c,i,j,qx,qy,e)` is
`weight * 2 * δ(i=r) * δ(j=c)` for all `r,c,i,j < 2`, and `2 * δ(i=r) * δ(j=c)`
is the second derivative of `I1`, the squared Frobenius norm of `Jpt`, with
respect to the entries `(r,c)` and `(i,j)`. -/
theorem EvalH_001_closed_form {Q1D NE : Nat} (e qx qy : Nat) (weight : ℝ)
    (Jpt : Nat → ℝ) (H : DeviceTensor ℝ (HSizes Q1D NE)) {r c i j : Nat}
    (hr : r < 2) (hc : c < 2) (hi : i < 2) (hj : j < 2) :
    (EvalH_001 e qx qy weight Jpt H).get [r, c, i, j, qx, qy, e]
        = weight * 2 * delta i r * delta j c
      ∧ partial2 Get_I1 Jpt (r + 2 * c) (i + 2 * j) = 2 * delta i r * delta j c := by
  constructor
  · rw [EvalH_001_get e qx qy weight Jpt H hr hc hi hj, Get_ddI1_entry c i j hr]
    ring
  · rw [partial2_I1 Jpt (r + 2 * c) (by omega : i + 2 * j < 4), delta_entry hr hi]
    ring

theorem EvalH_001_closed_form_witness :
    (0 < 2 ∧ 1 < 2) ∧
    ((EvalH_001 0 0 0 3 identity2 (Reshape (fun _ => (0 : ℝ)) (HSizes 1 1))).get
          [0, 1, 0, 1, 0, 0, 0] = 3 * 2 * delta 0 0 * delta 1 1
      ∧ partial2 Get_I1 identity2 (0 + 2 * 1) (0 + 2 * 1) = 2 * delta 0 0 * delta 1 1) :=
  ⟨by decide,
   EvalH_001_closed_form 0 0 0 3 identity2 (Reshape (fun _ => (0 : ℝ)) (HSizes 1 1))
     (by decide) (by decide) (by decide) (by decide)⟩

/-- C2. Metric 002 closed form: after `EvalH_002`, for every weight, every
local Jacobian `Jpt` with non-zero determinant and every slot `(e,qx,qy)`, the
entry `H(r,c,i,j,qx,qy,e)` is `0.5 * weight` times the second derivative of
`I1b = I1 / det(Jpt)` with respect to the entries `(r,c)` and `(i,j)` of `Jpt`,
for all `r,c,i,j < 2`. -/
theorem EvalH_002_closed_form {Q1D NE : Nat} (e qx qy : Nat) (weight : ℝ)
    (Jpt : Nat → ℝ) (H : DeviceTensor ℝ (HSizes Q1D NE)) {r c i j : Nat}
    (hr : r < 2) (hc : c < 2) (hi : i < 2) (hj : j < 2) (hdet : Get_I2b Jpt ≠ 0) :
    (EvalH_002 e qx qy weight Jpt H).get [r, c, i, j, qx, qy, e]
      = 0.5 * weight * partial2 Get_I1b Jpt (r + 2 * c) (i + 2 * j) := by
  rw [EvalH_002_get e qx qy weight Jpt H hr hc hi hj,
    partial2_I1b Jpt (by omega : r + 2 * c < 4) (by omega : i + 2 * j < 4) hdet]
  simp only [Get_ddI1b, Get_ddI1_entry c i j hr, delta_entry hr hi]
  ring

theorem EvalH_002_closed_form_witness :
    (0 < 2 ∧ 1 < 2 ∧ Get_I2b (identity2 : Nat → ℝ) ≠ 0) ∧
    (EvalH_002 0 0 0 3 identity2 (Reshape (fun _ => (0 : ℝ)) (HSizes 1 1))).get
        [0, 1, 0, 1, 0, 0, 0]
      = 0.5 * 3 * partial2 Get_I1b identity2 (0 + 2 * 1) (0 + 2 * 1) :=
  ⟨⟨by decide, by decide, by simp [Get_I2b, identity2]⟩,
   EvalH_002_closed_form 0 0 0 3 identity2 (Reshape (fun _ => (0 : ℝ)) (HSizes 1 1))
     (by decide) (by decide) (by decide) (by decide) (by simp [Get_I2b, identity2])⟩

/-- C3. Hessian symmetry: for metric id 1 or 2, every weight, every local
Jacobian `Jpt` with non-zero determinant and every slot `(e,qx,qy)`, the block
written by the metric evaluator satisfies
`H(r,c,i,j,qx,qy,e) = H(i,j,r,c,qx,qy,e)` for all `r,c,i,j < 2`. -/
theorem AssembleH_symmetric {K : Type} [Field K] {Q1D NE : Nat} (mid : Int)
    (e qx qy : Nat) (weight : K) (Jpt : Nat → K) (H : DeviceTensor K (HSizes Q1D NE))
    {r c i j : Nat} (hmid : mid = 1 ∨ mid = 2) (_hdet : Get_I2b Jpt ≠ 0)
    (hr : r < 2) (hc : c < 2) (hi : i < 2) (hj : j < 2) :
    (AssembleH mid e qx qy weight Jpt H).get [r, c, i, j, qx, qy, e]
      = (AssembleH mid e qx qy weight Jpt H).get [i, j, r, c, qx, qy, e] := by
  rcases hmid with h | h
  · subst h
    simp only [AssembleH, if_true, show ¬ ((1 : Int) = 2) by decide, if_false]
    rw [EvalH_001_get e qx qy weight Jpt H hr hc hi hj,
      EvalH_001_get e qx qy weight Jpt H hi hj hr hc,
      Get_ddI1_entry c i j hr, Get_ddI1_entry j r c hi, delta_symm r i, delta_symm c j]
  · subst h
    simp only [AssembleH, if_true, show ¬ ((2 : Int) = 1) by decide, if_false]
    rw [EvalH_002_get e qx qy weight Jpt H hr hc hi hj,
      EvalH_002_get e qx qy weight Jpt H hi hj hr hc]
    simp only [Get_ddI1b, Get_ddI1_entry c i j hr, Get_ddI1_entry j r c hi,
      ddI2b_symm (r + 2 * c) (i + 2 * j)]
    rw [delta_symm r i, delta_symm c j]
    ring

theorem AssembleH_symmetric_witness :
    ((2 : Int) = 1 ∨ (2 : Int) = 2) ∧ Get_I2b (identity2 : Nat → ℚ) ≠ 0 ∧
    (0 < 2 ∧ 1 < 2) ∧
    (AssembleH 2 0 0 0 3 identity2 (Reshape (fun _ => (0 : ℚ)) (HSizes 1 1))).get
        [0, 1, 1, 0, 0, 0, 0]
      = (AssembleH 2 0 0 0 3 identity2 (Reshape (fun _ => (0 : ℚ)) (HSizes 1 1))).get
        [1, 0, 0, 1, 0, 0, 0] :=
  ⟨by decide, by simp [Get_I2b, identity2], by decide,
   AssembleH_symmetric 2 0 0 0 3 identity2 (Reshape (fun _ => (0 : ℚ)) (HSizes 1 1))
     (by decide) (by simp [Get_I2b, identity2])
     (by decide) (by decide) (by decide) (by decide)⟩

end EvaluatorTheorems

/-! ## The kernel `SetupGradPA_2D` -/

section KernelTheorems

variable {K : Type} [Field K]

/-- The loops of `SetupGradPA_2D` depend on the weights and local Jacobians of
the points they visit only. -/
theorem pointLoops_congr {Q1D NE : Nat} (mid : Int) (wt wt' : Nat → Nat → Nat → K)
    (jp jp' : Nat → Nat → Nat → Nat → K)
    (h : ∀ e qx qy, e < NE → qx < Q1D → qy < Q1D →
      wt e qx qy = wt' e qx qy ∧ jp e qx qy = jp' e qx qy)
    (H : DeviceTensor K (HSizes Q1D NE)) :
    pointLoops mid wt jp H = pointLoops mid wt' jp' H := by
  unfold pointLoops
  refine forLoop_congr (fun e he H => ?_) H
  refine forLoop_congr (fun qy hqy H => ?_) H
  refine forLoop_congr (fun qx hqx H => ?_) H
  rw [(h e qx qy he hqx hqy).1, (h e qx qy he hqx hqy).2]

omit [Field K] in
theorem pointJtr_entry (Q1D NE : Nat) (j_ : Nat → K) (e qx qy r c : Nat) :
    pointJtr Q1D NE j_ e qx qy (r + 2 * c)
      = (Reshape j_ [2, 2, Q1D, Q1D, NE]).get [r, c, qx, qy, e] := by
  show j_ (0 + 2 * (0 + 2 * (qx + Q1D * (qy + Q1D * e))) + (r + 2 * c))
    = j_ (r + 2 * (c + 2 * (qx + Q1D * (qy + Q1D * e))))
  congr 1
  generalize qx + Q1D * (qy + Q1D * e) = S
  omega

theorem entryValue_smul (mid : Int) (a weight : K) (Jpt : Nat → K) (r c i j : Nat) :
    entryValue mid (a * weight) Jpt r c i j = a * entryValue mid weight Jpt r c i j := by
  unfold entryValue
  by_cases h : mid = 1
  · simp only [if_pos h]; ring
  · simp only [if_neg h]; ring

theorem Mult_222 (B C : Nat → K) :
    Mult 2 2 2 B C 0 = B 0 * C 0 + B 2 * C 1 ∧
    Mult 2 2 2 B C 1 = B 1 * C 0 + B 3 * C 1 ∧
    Mult 2 2 2 B C 2 = B 0 * C 2 + B 2 * C 3 ∧
    Mult 2 2 2 B C 3 = B 1 * C 2 + B 3 * C 3 := by
  simp [Mult, forLoop, List.range_succ, Function.update]

/-- The unit-square data give the identity as gradient `Jpr` at the
quadrature point `(1, 0)`. -/
theorem unitSquare_Jpr :
    refJpr 2 2 1 unitSquareX linearB linearG 0 1 0 0 = 1 ∧
    refJpr 2 2 1 unitSquareX linearB linearG 0 1 0 1 = 0 ∧
    refJpr 2 2 1 unitSquareX linearB linearG 0 1 0 2 = 0 ∧
    refJpr 2 2 1 unitSquareX linearB linearG 0 1 0 3 = 1 := by
  simp [refJpr, gradYacc, gradXacc, forLoop, List.range_succ, DeviceTensor.get, Reshape,
    TensorInd, unitSquareX, linearB, linearG]
  norm_num

/-- The unit-square data are regular at the quadrature point `(1, 0)`: the
local Jacobian has determinant 1 and the weight is the quadrature weight. -/
theorem unitSquare_regular :
    Get_I2b (pointJpt 8 8 2 2 1 unitSquareX linearB linearG identityJ 0 1 0) = 1
      ∧ pointWeight 2 1 1 (fun _ => 1 / 4) identityJ 0 1 0 = 1 / 4 := by
  obtain ⟨j0, j1, j2, j3⟩ := unitSquare_Jpr
  have hJ := pointJpr_eq_ref 8 8 2 2 1 unitSquareX linearB linearG 0 (by decide) (by decide)
    (by decide : 1 < 2) (by decide : 0 < 2)
  obtain ⟨n0, n1, n2, n3⟩ := Mult_222 (pointJpr 8 8 2 2 1 unitSquareX linearB linearG 0 1 0)
    (CalcInverse2 (pointJtr 2 1 identityJ 0 1 0))
  constructor
  · unfold Get_I2b pointJpt
    rw [n0, n1, n2, n3, hJ, j0, j1, j2, j3]
    simp [CalcInverse2, Det2, pointJtr, TensorInd, identityJ, identity2]
  · simp [pointWeight, Det2, pointJtr, TensorInd, identityJ, identity2, DeviceTensor.get,
      Reshape]

/-- The element 2 of a batch of 3 and the element 0 of a batch of 1 have the
same nodes in `unitSquareX`. -/
theorem unitSquareX_slices : ∀ dx dy c, dx < 2 → dy < 2 → c < 2 →
    (Reshape unitSquareX [2, 2, 2, 3]).get [dx, dy, c, 2]
      = (Reshape unitSquareX [2, 2, 2, 1]).get [dx, dy, c, 0] := by
  intro dx dy c h1 h2 h3
  interval_cases dx <;> interval_cases dy <;> interval_cases c <;>
    simp [DeviceTensor.get, Reshape, TensorInd, unitSquareX]

/-- The element 2 of a batch of 3 and the element 0 of a batch of 1 have the
same reference Jacobians in `identityJ`. -/
theorem identityJ_slices : ∀ r c qx qy, r < 2 → c < 2 → qx < 2 → qy < 2 →
    (Reshape identityJ [2, 2, 2, 2, 3]).get [r, c, qx, qy, 2]
      = (Reshape identityJ [2, 2, 2, 2, 1]).get [r, c, qx, qy, 0] := by
  intro r c qx qy h1 h2 h3 h4
  interval_cases r <;> interval_cases c <;> interval_cases qx <;> interval_cases qy <;>
    simp [DeviceTensor.get, Reshape, TensorInd, identityJ]

/-- C4. Scaling law: for fixed geometry, `metric_normal` and metric id 1 or 2,
replacing every quadrature weight `W(qx,qy)` by `2 * W(qx,qy)` makes every
entry `H(r,c,i,j,qx,qy,e)` of the output exactly twice its former value. -/
theorem SetupGradPA_2D_scaling (T_D1D T_Q1D T_MAX : Nat) (x_ : Nat → K)
    (metric_normal : K) (mid : Int) (NE : Nat) (w_ b_ g_ j_ h_ : Nat → K)
    (d1d q1d Q1D : Nat) {r c i j qx qy e : Nat}
    (hQ : Q1D = if T_Q1D ≠ 0 then T_Q1D else q1d) (hmid : mid = 1 ∨ mid = 2)
    (hr : r < 2) (hc : c < 2) (hi : i < 2) (hj : j < 2) (hqx : qx < Q1D)
    (hqy : qy < Q1D) (he : e < NE) :
    (Reshape (SetupGradPA_2D T_D1D T_Q1D T_MAX x_ metric_normal mid NE
        (fun n => 2 * w_ n) b_ g_ j_ h_ d1d q1d) (HSizes Q1D NE)).get
          [r, c, i, j, qx, qy, e]
      = 2 * (Reshape (SetupGradPA_2D T_D1D T_Q1D T_MAX x_ metric_normal mid NE
          w_ b_ g_ j_ h_ d1d q1d) (HSizes Q1D NE)).get [r, c, i, j, qx, qy, e] := by
  subst hQ
  rw [SetupGradPA_2D_eq, SetupGradPA_2D_eq]
  show (pointLoops mid _ _ _).get _ = 2 * (pointLoops mid _ _ _).get _
  rw [pointLoops_get mid _ _ _ hmid hr hc hi hj hqx hqy he,
    pointLoops_get mid _ _ _ hmid hr hc hi hj hqx hqy he, ← entryValue_smul]
  congr 1
  simp only [pointWeight, DeviceTensor.get, Reshape]
  ring

theorem SetupGradPA_2D_scaling_witness :
    ((2 : Nat) = if (0 : Nat) ≠ 0 then 0 else 2) ∧ ((2 : Int) = 1 ∨ (2 : Int) = 2) ∧
    (0 < 2 ∧ 1 < 2 ∧ 0 < 1) ∧
    ((Reshape (SetupGradPA_2D 0 0 8 unitSquareX 1 2 1
        (fun n => 2 * (fun _ => (1 / 4 : ℚ)) n) linearB linearG identityJ
        (fun _ => 0) 2 2) (HSizes 2 1)).get [0, 1, 0, 1, 1, 0, 0]
      = 2 * (Reshape (SetupGradPA_2D 0 0 8 unitSquareX 1 2 1
          (fun _ => (1 / 4 : ℚ)) linearB linearG identityJ
          (fun _ => 0) 2 2) (HSizes 2 1)).get [0, 1, 0, 1, 1, 0, 0]) ∧
    (Get_I2b (pointJpt 8 8 2 2 1 unitSquareX linearB linearG identityJ 0 1 0) = 1
      ∧ pointWeight 2 1 1 (fun _ => 1 / 4) identityJ 0 1 0 = 1 / 4) :=
  ⟨by decide, by decide, by decide,
   SetupGradPA_2D_scaling 0 0 8 unitSquareX 1 2 1 (fun _ => (1 / 4 : ℚ)) linearB
     linearG identityJ (fun _ => 0) 2 2 2 (by decide) (by decide)
     (by decide) (by decide) (by decide) (by decide) (by decide) (by decide) (by decide),
   unitSquare_regular⟩

/-- C5. Full overwrite: for a recognized metric id (1 or 2), every entry
`H(r,c,i,j,qx,qy,e)` with `r,c,i,j < 2`, `qx,qy < Q1D`, `e < NE` is assigned by
`SetupGradPA_2D`, and its final content is the same for any two initial
contents of `H`. -/
theorem SetupGradPA_2D_overwrites (T_D1D T_Q1D T_MAX : Nat) (x_ : Nat → K)
    (metric_normal : K) (mid : Int) (NE : Nat) (w_ b_ g_ j_ h_ h_' : Nat → K)
    (d1d q1d Q1D : Nat) {r c i j qx qy e : Nat}
    (hQ : Q1D = if T_Q1D ≠ 0 then T_Q1D else q1d) (hmid : mid = 1 ∨ mid = 2)
    (hr : r < 2) (hc : c < 2) (hi : i < 2) (hj : j < 2) (hqx : qx < Q1D)
    (hqy : qy < Q1D) (he : e < NE) :
    (Reshape (SetupGradPA_2D T_D1D T_Q1D T_MAX x_ metric_normal mid NE
        w_ b_ g_ j_ h_ d1d q1d) (HSizes Q1D NE)).get [r, c, i, j, qx, qy, e]
      = (Reshape (SetupGradPA_2D T_D1D T_Q1D T_MAX x_ metric_normal mid NE
        w_ b_ g_ j_ h_' d1d q1d) (HSizes Q1D NE)).get [r, c, i, j, qx, qy, e] := by
  subst hQ
  rw [SetupGradPA_2D_eq, SetupGradPA_2D_eq]
  show (pointLoops mid _ _ _).get _ = (pointLoops mid _ _ _).get _
  rw [pointLoops_get mid _ _ _ hmid hr hc hi hj hqx hqy he,
    pointLoops_get mid _ _ _ hmid hr hc hi hj hqx hqy he]

theorem SetupGradPA_2D_overwrites_witness :
    ((1 : Nat) = if (0 : Nat) ≠ 0 then 0 else 1) ∧ ((1 : Int) = 1 ∨ (1 : Int) = 2) ∧
    (0 < 2 ∧ 1 < 2 ∧ 0 < 1) ∧
    (Reshape (SetupGradPA_2D 0 0 8 (fun _ => (1 : ℚ)) 1 1 1
        (fun _ => 1) (fun _ => 1) (fun _ => 1) identity2
        (fun _ => 0) 1 1) (HSizes 1 1)).get [0, 1, 0, 1, 0, 0, 0]
      = (Reshape (SetupGradPA_2D 0 0 8 (fun _ => (1 : ℚ)) 1 1 1
          (fun _ => 1) (fun _ => 1) (fun _ => 1) identity2
          (fun _ => 7) 1 1) (HSizes 1 1)).get [0, 1, 0, 1, 0, 0, 0] :=
  ⟨by decide, by decide, by decide,
   SetupGradPA_2D_overwrites 0 0 8 (fun _ => (1 : ℚ)) 1 1 1 (fun _ => 1) (fun _ => 1)
     (fun _ => 1) identity2 (fun _ => 0) (fun _ => 7) 1 1 1 (by decide) (by decide)
     (by decide) (by decide) (by decide) (by decide) (by decide) (by decide) (by decide)⟩

/-- Without a recognized metric id the kernel stores nothing. -/
theorem SetupGradPA_2D_frame (T_D1D T_Q1D T_MAX : Nat) (x_ : Nat → K)
    (metric_normal : K) (mid : Int) (NE : Nat) (w_ b_ g_ j_ h_ : Nat → K)
    (d1d q1d : Nat) (h1 : mid ≠ 1) (h2 : mid ≠ 2) :
    SetupGradPA_2D T_D1D T_Q1D T_MAX x_ metric_normal mid NE w_ b_ g_ j_ h_ d1d q1d
      = h_ := by
  funext k
  rw [SetupGradPA_2D_eq]
  exact pointLoops_frame mid _ _ _ k (fun h => h.1.elim h1 h2)

/-- C6. Unrecognized metric id: for `mid` other than 1 and 2, `SetupGradPA_2D`
returns (no error path exists) and every cell of the output `H` keeps the
content it had before the call. -/
theorem SetupGradPA_2D_unrecognized (T_D1D T_Q1D T_MAX : Nat) (x_ : Nat → K)
    (metric_normal : K) (mid : Int) (NE : Nat) (w_ b_ g_ j_ h_ : Nat → K)
    (d1d q1d : Nat) (h1 : mid ≠ 1) (h2 : mid ≠ 2) :
    ∀ k, SetupGradPA_2D T_D1D T_Q1D T_MAX x_ metric_normal mid NE w_ b_ g_ j_ h_ d1d q1d k
      = h_ k := by
  intro k
  rw [SetupGradPA_2D_eq]
  exact pointLoops_frame mid _ _ _ k (fun h => h.1.elim h1 h2)

theorem SetupGradPA_2D_unrecognized_witness :
    ((3 : Int) ≠ 1 ∧ (3 : Int) ≠ 2) ∧
    ∀ k, SetupGradPA_2D 0 0 8 (fun _ => (1 : ℚ)) 1 3 1 (fun _ => 1) (fun _ => 1)
        (fun _ => 1) identity2 (fun _ => 7) 1 1 k
      = (fun _ => 7) k :=
  ⟨by decide,
   SetupGradPA_2D_unrecognized 0 0 8 (fun _ => (1 : ℚ)) 1 3 1 (fun _ => 1) (fun _ => 1)
     (fun _ => 1) identity2 (fun _ => 7) 1 1 (by decide) (by decide)⟩

/-- C9. Specialized equals generic: for `1 ≤ d, q ≤ 8` and every input, the
specialized instantiation `SetupGradPA_2D<d,q>` called with run-time sizes
`(0,0)` and the generic instantiation `SetupGradPA_2D<0,0,8>` called with
run-time sizes `(d,q)` leave the same content in `H`. -/
theorem SetupGradPA_2D_specialized_eq_generic (d q T_MAX : Nat) (x_ : Nat → K)
    (metric_normal : K) (mid : Int) (NE : Nat) (w_ b_ g_ j_ h_ : Nat → K)
    (hd : 1 ≤ d) (hd8 : d ≤ 8) (hq : 1 ≤ q) (hq8 : q ≤ 8) :
    SetupGradPA_2D d q T_MAX x_ metric_normal mid NE w_ b_ g_ j_ h_ 0 0
      = SetupGradPA_2D 0 0 8 x_ metric_normal mid NE w_ b_ g_ j_ h_ d q := by
  have hd0 : d ≠ 0 := by omega
  have hq0 : q ≠ 0 := by omega
  have e1 := SetupGradPA_2D_eq_sizes d q T_MAX x_ metric_normal mid NE w_ b_ g_ j_ h_ 0 0
      d q d q (by simp [hd0]) (by simp [hq0]) (by simp [hd0]) (by simp [hq0])
  have e2 := SetupGradPA_2D_eq_sizes 0 0 8 x_ metric_normal mid NE w_ b_ g_ j_ h_ d q
      d q 8 8 (by simp) (by simp) (by simp) (by simp)
  have e3 : pointLoops mid (pointWeight q NE metric_normal w_ j_)
      (pointJpt d q d q NE x_ b_ g_ j_) (Reshape h_ (HSizes q NE))
      = pointLoops mid (pointWeight q NE metric_normal w_ j_)
        (pointJpt 8 8 d q NE x_ b_ g_ j_) (Reshape h_ (HSizes q NE)) := by
    refine pointLoops_congr mid _ _ _ _ (fun e qx qy _ hqx hqy => ⟨rfl, ?_⟩) _
    unfold pointJpt
    rw [pointJpr_eq_ref d q d q NE x_ b_ g_ e (Nat.le_refl d) (Nat.le_refl q) hqx hqy,
      pointJpr_eq_ref 8 8 d q NE x_ b_ g_ e hd8 hq8 hqx hqy]
  rw [e1, e2, e3]

theorem SetupGradPA_2D_specialized_eq_generic_witness :
    (1 ≤ 2 ∧ 2 ≤ 8 ∧ 1 ≤ 3 ∧ 3 ≤ 8) ∧
    SetupGradPA_2D 2 3 0 (fun n => (n : ℚ)) 1 2 5 (fun _ => 1) (fun n => (n : ℚ))
        (fun n => 1 - (n : ℚ)) identity2 (fun _ => 0) 0 0
      = SetupGradPA_2D 0 0 8 (fun n => (n : ℚ)) 1 2 5 (fun _ => 1) (fun n => (n : ℚ))
        (fun n => 1 - (n : ℚ)) identity2 (fun _ => 0) 2 3 :=
  ⟨by decide,
   SetupGradPA_2D_specialized_eq_generic 2 3 0 (fun n => (n : ℚ)) 1 2 5 (fun _ => 1)
     (fun n => (n : ℚ)) (fun n => 1 - (n : ℚ)) identity2 (fun _ => 0)
     (by decide) (by decide) (by decide) (by decide)⟩

omit [Field K] in
/-- The tiles `s_X` of two elements with the same nodes are the same. -/
theorem LoadX_congr (MD1 D1D NE NE' : Nat) (x_ x_' : Nat → K) (e e' : Nat)
    (hX : ∀ dx dy c, dx < D1D → dy < D1D → c < 2 →
      (Reshape x_ [D1D, D1D, 2, NE]).get [dx, dy, c, e]
        = (Reshape x_' [D1D, D1D, 2, NE']).get [dx, dy, c, e']) (s : Tiles K) :
    LoadX MD1 e D1D (Reshape x_ [D1D, D1D, 2, NE]) s
      = LoadX MD1 e' D1D (Reshape x_' [D1D, D1D, 2, NE']) s := by
  unfold LoadX
  refine forLoop_congr (fun dy hdy s => ?_) s
  refine forLoop_congr (fun dx hdx s => ?_) s
  simp only [hX dx dy 0 hdx hdy (by decide), hX dx dy 1 hdx hdy (by decide)]

/-- The local Jacobian and the weight of a point depend on the slices of `X` and
`J` of its element only. -/
theorem point_congr (MD1 MQ1 D1D Q1D NE NE' : Nat) (metric_normal : K)
    (x_ x_' w_ b_ g_ j_ j_' : Nat → K) (e e' qx qy : Nat)
    (hX : ∀ dx dy c, dx < D1D → dy < D1D → c < 2 →
      (Reshape x_ [D1D, D1D, 2, NE]).get [dx, dy, c, e]
        = (Reshape x_' [D1D, D1D, 2, NE']).get [dx, dy, c, e'])
    (hJ : ∀ r c, r < 2 → c < 2 →
      (Reshape j_ [2, 2, Q1D, Q1D, NE]).get [r, c, qx, qy, e]
        = (Reshape j_' [2, 2, Q1D, Q1D, NE']).get [r, c, qx, qy, e']) :
    pointWeight Q1D NE metric_normal w_ j_ e qx qy
        = pointWeight Q1D NE' metric_normal w_ j_' e' qx qy
      ∧ pointJpt MD1 MQ1 D1D Q1D NE x_ b_ g_ j_ e qx qy
        = pointJpt MD1 MQ1 D1D Q1D NE' x_' b_ g_ j_' e' qx qy := by
  have h0 : pointJtr Q1D NE j_ e qx qy 0 = pointJtr Q1D NE' j_' e' qx qy 0 := by
    have := hJ 0 0 (by decide) (by decide)
    rwa [← pointJtr_entry, ← pointJtr_entry] at this
  have h1 : pointJtr Q1D NE j_ e qx qy 1 = pointJtr Q1D NE' j_' e' qx qy 1 := by
    have := hJ 1 0 (by decide) (by decide)
    rwa [← pointJtr_entry, ← pointJtr_entry] at this
  have h2 : pointJtr Q1D NE j_ e qx qy 2 = pointJtr Q1D NE' j_' e' qx qy 2 := by
    have := hJ 0 1 (by decide) (by decide)
    rwa [← pointJtr_entry, ← pointJtr_entry] at this
  have h3 : pointJtr Q1D NE j_ e qx qy 3 = pointJtr Q1D NE' j_' e' qx qy 3 := by
    have := hJ 1 1 (by decide) (by decide)
    rwa [← pointJtr_entry, ← pointJtr_entry] at this
  have hdet : Det2 (pointJtr Q1D NE j_ e qx qy) = Det2 (pointJtr Q1D NE' j_' e' qx qy) := by
    unfold Det2; rw [h0, h1, h2, h3]
  have hinv : CalcInverse2 (pointJtr Q1D NE j_ e qx qy)
      = CalcInverse2 (pointJtr Q1D NE' j_' e' qx qy) := by
    funext n
    unfold CalcInverse2
    simp only [hdet, h0, h1, h2, h3]
  refine ⟨?_, ?_⟩
  · unfold pointWeight; rw [hdet]
  · unfold pointJpt pointJpr elementQQ
    rw [hinv, LoadX_congr MD1 D1D NE NE' x_ x_' e e' hX]

/-- C10. Batch independence (for a recognized metric id): in `SetupGradPA_2D`
the output block `H(.,.,.,.,qx,qy,e)` of element `e` is determined by the
slices `X(.,.,.,e)` and `J(.,.,.,.,e)` of that element and the shared inputs;
two elements with the same slices, in the same batch or in batches of
different sizes, get the same block at each quadrature point. -/
theorem SetupGradPA_2D_batch_independent (T_D1D T_Q1D T_MAX : Nat) (metric_normal : K)
    (mid : Int) (NE NE' : Nat) (x_ x_' w_ b_ g_ j_ j_' h_ h_' : Nat → K)
    (d1d q1d D1D Q1D : Nat) {r c i j qx qy e e' : Nat}
    (hD : D1D = if T_D1D ≠ 0 then T_D1D else d1d)
    (hQ : Q1D = if T_Q1D ≠ 0 then T_Q1D else q1d) (hmid : mid = 1 ∨ mid = 2)
    (hX : ∀ dx dy c, dx < D1D → dy < D1D → c < 2 →
      (Reshape x_ [D1D, D1D, 2, NE]).get [dx, dy, c, e]
        = (Reshape x_' [D1D, D1D, 2, NE']).get [dx, dy, c, e'])
    (hJ : ∀ r c qx qy, r < 2 → c < 2 → qx < Q1D → qy < Q1D →
      (Reshape j_ [2, 2, Q1D, Q1D, NE]).get [r, c, qx, qy, e]
        = (Reshape j_' [2, 2, Q1D, Q1D, NE']).get [r, c, qx, qy, e'])
    (hr : r < 2) (hc : c < 2) (hi : i < 2) (hj : j < 2) (hqx : qx < Q1D)
    (hqy : qy < Q1D) (he : e < NE) (he' : e' < NE') :
    (Reshape (SetupGradPA_2D T_D1D T_Q1D T_MAX x_ metric_normal mid NE
        w_ b_ g_ j_ h_ d1d q1d) (HSizes Q1D NE)).get [r, c, i, j, qx, qy, e]
      = (Reshape (SetupGradPA_2D T_D1D T_Q1D T_MAX x_' metric_normal mid NE'
        w_ b_ g_ j_' h_' d1d q1d) (HSizes Q1D NE')).get [r, c, i, j, qx, qy, e'] := by
  subst hD hQ
  rw [SetupGradPA_2D_eq, SetupGradPA_2D_eq]
  show (pointLoops mid _ _ _).get _ = (pointLoops mid _ _ _).get _
  rw [pointLoops_get mid _ _ _ hmid hr hc hi hj hqx hqy he,
    pointLoops_get mid _ _ _ hmid hr hc hi hj hqx hqy he']
  obtain ⟨h1, h2⟩ := point_congr (if T_D1D ≠ 0 then T_D1D else T_MAX)
    (if T_Q1D ≠ 0 then T_Q1D else T_MAX) _ _ NE NE' metric_normal x_ x_' w_ b_ g_ j_ j_'
    e e' qx qy hX (fun r c hr hc => hJ r c qx qy hr hc hqx hqy)
  rw [h1, h2]

theorem SetupGradPA_2D_batch_independent_witness :
    ((2 : Nat) = if (0 : Nat) ≠ 0 then 0 else 2) ∧ ((2 : Int) = 1 ∨ (2 : Int) = 2) ∧
    (0 < 2 ∧ 1 < 2 ∧ 0 < 1 ∧ 2 < 3) ∧
    ((Reshape (SetupGradPA_2D 0 0 8 unitSquareX 1 2 3
        (fun _ => 1 / 4) linearB linearG identityJ
        (fun _ => 0) 2 2) (HSizes 2 3)).get [0, 1, 0, 1, 1, 0, 2]
      = (Reshape (SetupGradPA_2D 0 0 8 unitSquareX 1 2 1
        (fun _ => 1 / 4) linearB linearG identityJ
        (fun _ => 7) 2 2) (HSizes 2 1)).get [0, 1, 0, 1, 1, 0, 0]) ∧
    (Get_I2b (pointJpt 8 8 2 2 1 unitSquareX linearB linearG identityJ 0 1 0) = 1
      ∧ pointWeight 2 1 1 (fun _ => 1 / 4) identityJ 0 1 0 = 1 / 4) :=
  ⟨by decide, by decide, by decide,
   SetupGradPA_2D_batch_independent 0 0 8 (1 : ℚ) 2 3 1 unitSquareX unitSquareX
     (fun _ => 1 / 4) linearB linearG identityJ identityJ (fun _ => 0)
     (fun _ => 7) 2 2 2 2 (by decide) (by decide) (by decide)
     unitSquareX_slices identityJ_slices
     (by decide) (by decide) (by decide) (by decide) (by decide) (by decide)
     (by decide) (by decide),
   unitSquare_regular⟩

/-- C10, the claim as stated fails for an unrecognized metric id: two elements
with the same slices of `X` and `J` (all arrays constant) keep different
blocks when the blocks of `H` differed before the call. -/
theorem SetupGradPA_2D_batch_unrecognized :
    (Reshape (SetupGradPA_2D 0 0 8 (fun _ => (1 : ℚ)) 1 3 2
        (fun _ => 1) (fun _ => 1) (fun _ => 1) (fun _ => 1)
        (fun n => if n = 0 then 1 else 0) 1 1) (HSizes 1 2)).get [0, 0, 0, 0, 0, 0, 0]
      ≠ (Reshape (SetupGradPA_2D 0 0 8 (fun _ => (1 : ℚ)) 1 3 2
        (fun _ => 1) (fun _ => 1) (fun _ => 1) (fun _ => 1)
        (fun n => if n = 0 then 1 else 0) 1 1) (HSizes 1 2)).get [0, 0, 0, 0, 0, 0, 1] := by
  have h := SetupGradPA_2D_frame 0 0 8 (fun _ => (1 : ℚ)) 1 3 2
    (fun _ => 1) (fun _ => 1) (fun _ => 1) (fun _ => 1)
    (fun n => if n = 0 then 1 else 0) 1 1 (by decide) (by decide)
  rw [h]
  simp [DeviceTensor.get, Reshape, TensorInd]

/-- The kernel `CalcInverse2` is a left inverse where the determinant does not vanish. -/
theorem CalcInverse2_mul (Jtr : Nat → K) (hdet : Det2 Jtr ≠ 0) {k : Nat} (hk : k < 4) :
    Mult 2 2 2 (CalcInverse2 Jtr) Jtr k = identity2 k := by
  obtain ⟨m0, m1, m2, m3⟩ := Mult_222 (CalcInverse2 Jtr) Jtr
  have hdet' : Jtr 0 * Jtr 3 - Jtr 1 * Jtr 2 ≠ 0 := hdet
  have i0 : (identity2 0 : K) = 1 := by simp [identity2]
  have i1 : (identity2 1 : K) = 0 := by simp [identity2]
  have i2 : (identity2 2 : K) = 0 := by simp [identity2]
  have i3 : (identity2 3 : K) = 1 := by simp [identity2]
  interval_cases k
  · rw [m0, i0]; simp only [CalcInverse2, Det2]; field_simp; ring
  · rw [m1, i1]; simp only [CalcInverse2, Det2]; field_simp; ring
  · rw [m2, i2]; simp only [CalcInverse2, Det2]; field_simp; ring
  · rw [m3, i3]; simp only [CalcInverse2, Det2]; field_simp; ring

/-- The product `(Jpr . Jrt) . Jtr` is `Jpr` where the determinant of `Jtr` does not vanish. -/
theorem Mult_inverse_cancel (Jpr Jtr : Nat → K) (hdet : Det2 Jtr ≠ 0) {k : Nat}
    (hk : k < 4) :
    Mult 2 2 2 (Mult 2 2 2 Jpr (CalcInverse2 Jtr)) Jtr k = Jpr k := by
  obtain ⟨m0, m1, m2, m3⟩ := Mult_222 (Mult 2 2 2 Jpr (CalcInverse2 Jtr)) Jtr
  obtain ⟨n0, n1, n2, n3⟩ := Mult_222 Jpr (CalcInverse2 Jtr)
  have hdet' : Jtr 0 * Jtr 3 - Jtr 1 * Jtr 2 ≠ 0 := hdet
  interval_cases k
  · rw [m0, n0, n2]; simp only [CalcInverse2, Det2]; field_simp; ring
  · rw [m1, n1, n3]; simp only [CalcInverse2, Det2]; field_simp; ring
  · rw [m2, n0, n2]; simp only [CalcInverse2, Det2]; field_simp; ring
  · rw [m3, n1, n3]; simp only [CalcInverse2, Det2]; field_simp; ring

/-- C11. Per-quadrature-point step: `SetupGradPA_2D` invokes the metric
evaluator at each element `e` and quadrature point `(qx,qy)` with
`weight = metric_normal * W(qx,qy) * det(Jtr)` and `Jpt = Jpr . Jrt`, where
`Jtr = J(.,.,qx,qy,e)` and `Jrt = CalcInverse(Jtr)`; where `det(Jtr) ≠ 0`,
`Jrt` is the inverse of `Jtr` and `Jpt . Jtr = Jpr`; and when `Jtr` is the
identity, `Jpt = Jpr` and `weight = metric_normal * W(qx,qy)`. -/
theorem SetupGradPA_2D_point_step (T_D1D T_Q1D T_MAX : Nat) (x_ : Nat → K)
    (metric_normal : K) (mid : Int) (NE : Nat) (w_ b_ g_ j_ h_ : Nat → K)
    (d1d q1d D1D Q1D MD1 MQ1 : Nat) (e qx qy : Nat)
    (hD : D1D = if T_D1D ≠ 0 then T_D1D else d1d)
    (hQ : Q1D = if T_Q1D ≠ 0 then T_Q1D else q1d)
    (hMD : MD1 = if T_D1D ≠ 0 then T_D1D else T_MAX)
    (hMQ : MQ1 = if T_Q1D ≠ 0 then T_Q1D else T_MAX)
    (hdet : Det2 (pointJtr Q1D NE j_ e qx qy) ≠ 0) :
    SetupGradPA_2D T_D1D T_Q1D T_MAX x_ metric_normal mid NE w_ b_ g_ j_ h_ d1d q1d
        = (forLoop NE (fun e H => forLoop Q1D (fun qy H => forLoop Q1D (fun qx H =>
            AssembleH mid e qx qy
              (metric_normal * (Reshape w_ [Q1D, Q1D]).get [qx, qy]
                * Det2 (pointJtr Q1D NE j_ e qx qy))
              (Mult 2 2 2 (pointJpr MD1 MQ1 D1D Q1D NE x_ b_ g_ e qx qy)
                (CalcInverse2 (pointJtr Q1D NE j_ e qx qy))) H) H) H)
            (Reshape h_ (HSizes Q1D NE))).data
      ∧ (∀ k, k < 4 →
          Mult 2 2 2 (CalcInverse2 (pointJtr Q1D NE j_ e qx qy))
            (pointJtr Q1D NE j_ e qx qy) k = identity2 k)
      ∧ (∀ k, k < 4 →
          Mult 2 2 2 (pointJpt MD1 MQ1 D1D Q1D NE x_ b_ g_ j_ e qx qy)
            (pointJtr Q1D NE j_ e qx qy) k
            = pointJpr MD1 MQ1 D1D Q1D NE x_ b_ g_ e qx qy k)
      ∧ ((∀ k, k < 4 → pointJtr Q1D NE j_ e qx qy k = identity2 k) →
          (∀ k, k < 4 → pointJpt MD1 MQ1 D1D Q1D NE x_ b_ g_ j_ e qx qy k
            = pointJpr MD1 MQ1 D1D Q1D NE x_ b_ g_ e qx qy k)
          ∧ pointWeight Q1D NE metric_normal w_ j_ e qx qy
            = metric_normal * (Reshape w_ [Q1D, Q1D]).get [qx, qy]) := by
  refine ⟨?_, fun k hk => CalcInverse2_mul _ hdet hk,
    fun k hk => Mult_inverse_cancel _ _ hdet hk, fun hid => ?_⟩
  · exact SetupGradPA_2D_eq_sizes T_D1D T_Q1D T_MAX x_ metric_normal mid NE w_ b_ g_ j_ h_
      d1d q1d D1D Q1D MD1 MQ1 hD hQ hMD hMQ
  · have h0 := hid 0 (by decide)
    have h1 := hid 1 (by decide)
    have h2 := hid 2 (by decide)
    have h3 := hid 3 (by decide)
    simp only [identity2] at h0 h1 h2 h3
    norm_num at h0 h1 h2 h3
    obtain ⟨n0, n1, n2, n3⟩ := Mult_222 (pointJpr MD1 MQ1 D1D Q1D NE x_ b_ g_ e qx qy)
      (CalcInverse2 (pointJtr Q1D NE j_ e qx qy))
    refine ⟨fun k hk => ?_, ?_⟩
    · unfold pointJpt
      interval_cases k
      · rw [n0]; simp [CalcInverse2, Det2, h0, h1, h2, h3]
      · rw [n1]; simp [CalcInverse2, Det2, h0, h1, h2, h3]
      · rw [n2]; simp [CalcInverse2, Det2, h0, h1, h2, h3]
      · rw [n3]; simp [CalcInverse2, Det2, h0, h1, h2, h3]
    · simp [pointWeight, Det2, h0, h1, h2, h3]

theorem SetupGradPA_2D_point_step_witness :
    (((1 : Nat) = if (0 : Nat) ≠ 0 then 0 else 1) ∧ ((8 : Nat) = if (0 : Nat) ≠ 0 then 0 else 8)
      ∧ Det2 (pointJtr 1 1 (identity2 : Nat → ℚ) 0 0 0) ≠ 0) ∧
    (SetupGradPA_2D 0 0 8 (fun _ => (1 : ℚ)) 3 2 1 (fun _ => 1) (fun _ => 1) (fun _ => 1)
          identity2 (fun _ => 0) 1 1
        = (forLoop 1 (fun e H => forLoop 1 (fun qy H => forLoop 1 (fun qx H =>
            AssembleH 2 e qx qy
              (3 * (Reshape (fun _ => (1 : ℚ)) [1, 1]).get [qx, qy]
                * Det2 (pointJtr 1 1 identity2 e qx qy))
              (Mult 2 2 2 (pointJpr 8 8 1 1 1 (fun _ => 1) (fun _ => 1) (fun _ => 1) e qx qy)
                (CalcInverse2 (pointJtr 1 1 identity2 e qx qy))) H) H) H)
            (Reshape (fun _ => 0) (HSizes 1 1))).data
      ∧ (∀ k, k < 4 →
          Mult 2 2 2 (CalcInverse2 (pointJtr 1 1 (identity2 : Nat → ℚ) 0 0 0))
            (pointJtr 1 1 identity2 0 0 0) k = identity2 k)
      ∧ (∀ k, k < 4 →
          Mult 2 2 2 (pointJpt 8 8 1 1 1 (fun _ => (1 : ℚ)) (fun _ => 1) (fun _ => 1)
              identity2 0 0 0)
            (pointJtr 1 1 identity2 0 0 0) k
            = pointJpr 8 8 1 1 1 (fun _ => (1 : ℚ)) (fun _ => 1) (fun _ => 1) 0 0 0 k)
      ∧ ((∀ k, k < 4 → pointJtr 1 1 (identity2 : Nat → ℚ) 0 0 0 k = identity2 k) →
          (∀ k, k < 4 → pointJpt 8 8 1 1 1 (fun _ => (1 : ℚ)) (fun _ => 1) (fun _ => 1)
              identity2 0 0 0 k
            = pointJpr 8 8 1 1 1 (fun _ => (1 : ℚ)) (fun _ => 1) (fun _ => 1) 0 0 0 k)
          ∧ pointWeight 1 1 3 (fun _ => (1 : ℚ)) identity2 0 0 0
            = 3 * (Reshape (fun _ => (1 : ℚ)) [1, 1]).get [0, 0])) :=
  ⟨⟨by decide, by decide, by simp [Det2, pointJtr, TensorInd, identity2]⟩,
   SetupGradPA_2D_point_step 0 0 8 (fun _ => (1 : ℚ)) 3 2 1 (fun _ => 1) (fun _ => 1)
     (fun _ => 1) identity2 (fun _ => 0) 1 1 1 1 8 8 0 0 0 (by decide) (by decide)
     (by decide) (by decide) (by simp [Det2, pointJtr, TensorInd, identity2])⟩

omit [Field K] in
/-- The cells outside the slot are not stored to by the loops of an evaluator. -/
theorem evalLoops_frame {Q1D NE : Nat} (e qx qy : Nat) (f : Nat → Nat → Nat → Nat → K)
    (H : DeviceTensor K (HSizes Q1D NE)) (k : Nat) (h : ¬ InSlot Q1D NE qx qy e k) :
    (forLoop 2 (fun i H => forLoop 2 (fun j H => forLoop 2 (fun r H =>
        forLoop 2 (fun c H => H.set [r, c, i, j, qx, qy, e] (f i j r c)) H) H) H) H).data k
      = H.data k := by
  refine ((evalLoops_writes e qx qy f k (H.data k) ?_) H).2 h
  intro i j r c hi hj hr hc hk
  exact absurd ⟨i, hi, j, hj, r, hr, c, hc, hk⟩ h

/-- C13. Disjoint output slots: for every slot `(e,qx,qy)` of the tensor,
`EvalH_001` and `EvalH_002` modify only cells of the 16 entries
`H(r,c,i,j,qx,qy,e)`, `r,c,i,j < 2`; every entry `H(r,c,i,j,qx',qy',e')` of
another slot `(qx',qy',e') ≠ (qx,qy,e)` is unchanged. -/
theorem EvalH_disjoint_slots {Q1D NE : Nat} (e qx qy : Nat) (weight : K) (Jpt : Nat → K)
    (H : DeviceTensor K (HSizes Q1D NE)) (hqx : qx < Q1D) (hqy : qy < Q1D) :
    (∀ k, ¬ InSlot Q1D NE qx qy e k →
        (EvalH_001 e qx qy weight Jpt H).data k = H.data k
        ∧ (EvalH_002 e qx qy weight Jpt H).data k = H.data k)
      ∧ (∀ r c i j qx' qy' e', r < 2 → c < 2 → i < 2 → j < 2 → qx' < Q1D → qy' < Q1D →
          (qx', qy', e') ≠ (qx, qy, e) →
          (EvalH_001 e qx qy weight Jpt H).get [r, c, i, j, qx', qy', e']
              = H.get [r, c, i, j, qx', qy', e']
            ∧ (EvalH_002 e qx qy weight Jpt H).get [r, c, i, j, qx', qy', e']
              = H.get [r, c, i, j, qx', qy', e']) := by
  have hframe : ∀ k, ¬ InSlot Q1D NE qx qy e k →
      (EvalH_001 e qx qy weight Jpt H).data k = H.data k
      ∧ (EvalH_002 e qx qy weight Jpt H).data k = H.data k :=
    fun k hk => ⟨evalLoops_frame e qx qy _ H k hk, evalLoops_frame e qx qy _ H k hk⟩
  refine ⟨hframe, ?_⟩
  intro r c i j qx' qy' e' hr hc hi hj hqx' hqy' hne
  refine hframe _ ?_
  rintro ⟨i', hi', j', hj', r', hr', c', hc', hk⟩
  obtain ⟨-, -, -, -, h5, h6, h7⟩ :=
    TensorInd_H_inj hr hc hi hj hqx' hqy' hr' hc' hi' hj' hqx hqy hk
  exact hne (by rw [h5, h6, h7])

theorem EvalH_disjoint_slots_witness :
    ((0 : Nat) < 2 ∧ (1 : Nat) < 2) ∧
    ((∀ k, ¬ InSlot 2 1 0 1 0 k →
        (EvalH_001 0 0 1 (3 : ℚ) identity2 (Reshape (fun _ => 7) (HSizes 2 1))).data k
            = (Reshape (fun _ => (7 : ℚ)) (HSizes 2 1)).data k
        ∧ (EvalH_002 0 0 1 (3 : ℚ) identity2 (Reshape (fun _ => 7) (HSizes 2 1))).data k
            = (Reshape (fun _ => (7 : ℚ)) (HSizes 2 1)).data k)
      ∧ (∀ r c i j qx' qy' e', r < 2 → c < 2 → i < 2 → j < 2 → qx' < 2 → qy' < 2 →
          (qx', qy', e') ≠ (0, 1, 0) →
          (EvalH_001 0 0 1 (3 : ℚ) identity2 (Reshape (fun _ => 7) (HSizes 2 1))).get
                [r, c, i, j, qx', qy', e']
              = (Reshape (fun _ => (7 : ℚ)) (HSizes 2 1)).get [r, c, i, j, qx', qy', e']
            ∧ (EvalH_002 0 0 1 (3 : ℚ) identity2 (Reshape (fun _ => 7) (HSizes 2 1))).get
                [r, c, i, j, qx', qy', e']
              = (Reshape (fun _ => (7 : ℚ)) (HSizes 2 1)).get
                [r, c, i, j, qx', qy', e'])) :=
  ⟨by decide,
   EvalH_disjoint_slots 0 0 1 (3 : ℚ) identity2 (Reshape (fun _ => 7) (HSizes 2 1))
     (by decide) (by decide)⟩

end KernelTheorems

/-! ## The dispatcher `AssembleGradPA_2D` -/

section DispatchTheorems

/-- On a registry miss the check is made: a pair over the maxima with no
variant filed under its key fails with "Max size error!" and no kernel is
invoked. -/
theorem AssembleGradPA_2D_miss_checked {K : Type} [Field K] (MAX_D1D MAX_Q1D : Nat)
    (KSetupGradPA_2D : KernelMap) (N : Nat) (M : Int) (D1D Q1D : Nat)
    (J W B G H : Nat → K) (mn : K) (X : Nat → K)
    (hmax : MAX_D1D < D1D ∨ MAX_Q1D < Q1D)
    (hreg : KSetupGradPA_2D (kernelId D1D Q1D) = none) :
    AssembleGradPA_2D_dispatch MAX_D1D MAX_Q1D KSetupGradPA_2D D1D Q1D
        = Except.error ("Max size error!")
      ∧ AssembleGradPA_2D MAX_D1D MAX_Q1D KSetupGradPA_2D N M D1D Q1D J W B G H mn X
        = Except.error ("Max size error!") := by
  have hno : ¬ (D1D ≤ MAX_D1D ∧ Q1D ≤ MAX_Q1D) := by omega
  have hreg' : KSetupGradPA_2D (((D1D <<< 4) ||| Q1D) % 2 ^ 32) = none := hreg
  have hd : AssembleGradPA_2D_dispatch MAX_D1D MAX_Q1D KSetupGradPA_2D D1D Q1D
      = Except.error ("Max size error!") := by
    simp only [AssembleGradPA_2D_dispatch, hreg', if_neg hno]
  refine ⟨hd, ?_⟩
  simp only [AssembleGradPA_2D, hd]

/-- C7, the failing input: with the compiled maxima 14 and the specialization
`<2,3>` registered, the run-time pair `(D1D, Q1D) = (2, 35)` exceeds the
maximum in `Q1D`, yet the lookup succeeds (its key `0x23` is that of `(2, 3)`),
the check is not reached and the specialized kernel `SetupGradPA_2D<2,3>` is
invoked; the over-max pair `(15, 3)`, whose key is not registered, takes the
other branch and fails the check. -/
theorem AssembleGradPA_2D_over_max_dispatched :
    14 < 35 ∧ kernelId 2 35 = 0x23 ∧
    AssembleGradPA_2D_dispatch 14 14 registry23 2 35 = Except.ok ⟨2, 3, 0, 0, 0⟩ ∧
    AssembleGradPA_2D 14 14 registry23 1 1 2 35 (fun _ => (1 : ℚ)) (fun _ => 1)
        (fun _ => 1) (fun _ => 1) (fun _ => 0) 1 (fun _ => 1)
      = Except.ok (SetupGradPA_2D 2 3 0 (fun _ => (1 : ℚ)) 1 1 1 (fun _ => 1)
          (fun _ => 1) (fun _ => 1) (fun _ => 1) (fun _ => 0) 0 0) ∧
    AssembleGradPA_2D_dispatch 14 14 registry23 15 3 = Except.error ("Max size error!") :=
  ⟨by decide, by decide, rfl, rfl, rfl⟩

/-- C12, the failing input: with the compiled maxima `MAX_D1D = MAX_Q1D = 14`
and nothing registered under its key, the pair `(10, 10)` passes the check
`D1D <= MAX_D1D && Q1D <= MAX_Q1D` and reaches the generic kernel
`SetupGradPA_2D<0,0,8>`, although `10 > T_MAX = 8`; the tiles of `8 * 8` cells
are then indexed at `9 + 8 * 9`, and the nodes `(8, 0)` and `(0, 1)` are given
the same cell of `s_X`. -/
theorem AssembleGradPA_2D_generic_over_tile :
    AssembleGradPA_2D_dispatch 14 14 (fun _ => none) 10 10 = Except.ok ⟨0, 0, 8, 10, 10⟩
      ∧ ¬ (10 ≤ 8) ∧ 8 * 8 ≤ TensorInd [8, 8] [9, 9]
      ∧ TensorInd [8, 8] [8, 0] = TensorInd [8, 8] [0, 1] :=
  ⟨rfl, by decide, by decide, by decide⟩

end DispatchTheorems

end mfem

/-!
# Properties of the convergence-rate bookkeeping
-/

namespace ConvergenceRates

variable {K : Type} [Field K]

theorem registerAll_append (log : K → K) (rs : List (Solution K)) (r : Solution K)
    (s : ConvergenceRates K) :
    registerAll log (rs ++ [r]) s = register log (registerAll log rs s) r := by
  simp [registerAll, List.foldl_append]

theorem register_fields (log : K → K) (s : ConvergenceRates K) (r : Solution K) :
    (register log s r).counter = s.counter + 1
      ∧ (register log s r).L2Errors = s.L2Errors ++ [r.L2Err]
      ∧ (register log s r).L2Rates = s.L2Rates ++
          [if s.counter ≠ 0 then
            log ((s.L2Errors ++ [r.L2Err]).getD (s.counter - 1) 0 / r.L2Err) / log 2
           else 0] := by
  unfold register
  cases r.vector <;> simp [RegisterSolution, RegisterSolution_Vector]

/-- C14, the failing run: after `RegisterSolution`, `Clear`, `RegisterSolution`
the counter is 1 while `ndofs`, `L2Errors`, `L2RelErrors` and `L2RelRates` have
two entries (`Clear` empties `L2Rates` only); the next `RegisterSolution` then
reads `L2Errors[0]`, the error registered before the `Clear`, for its rate. -/
theorem Clear_leaves_arrays (log : K → K) (t0 t1 t2 : Int) (e0 n0 e1 n1 e2 n2 : K) :
    (RegisterSolution log t1 e1 n1 (Clear (RegisterSolution log t0 e0 n0 empty))).counter = 1
      ∧ (RegisterSolution log t1 e1 n1
          (Clear (RegisterSolution log t0 e0 n0 empty))).ndofs = [t0, t1]
      ∧ (RegisterSolution log t1 e1 n1
          (Clear (RegisterSolution log t0 e0 n0 empty))).L2Errors = [e0, e1]
      ∧ (RegisterSolution log t1 e1 n1
          (Clear (RegisterSolution log t0 e0 n0 empty))).L2Rates = [0]
      ∧ (RegisterSolution log t1 e1 n1
          (Clear (RegisterSolution log t0 e0 n0 empty))).L2RelErrors.length = 2
      ∧ (RegisterSolution log t1 e1 n1
          (Clear (RegisterSolution log t0 e0 n0 empty))).L2RelRates.length = 2
      ∧ (RegisterSolution log t2 e2 n2 (RegisterSolution log t1 e1 n1
          (Clear (RegisterSolution log t0 e0 n0 empty)))).L2Rates
          = [0, log (e0 / e2) / log 2] := by
  simp [RegisterSolution, Clear, empty]

/-- C15, the failing inputs: in the state after one `RegisterSolution`
(`counter = 1`, one entry in `L2Errors`), `GetL2Error(1)` and `GetL2Error(-1)`
pass the check `n <= counter` and read `L2Errors` outside the array. -/
theorem GetL2Error_passes_out_of_bounds (log : K → K) (t0 : Int) (e0 n0 : K) :
    (RegisterSolution log t0 e0 n0 empty).counter = 1
      ∧ (RegisterSolution log t0 e0 n0 empty).L2Errors.length = 1
      ∧ GetL2Error (RegisterSolution log t0 e0 n0 empty) 1 = Except.ok none
      ∧ GetL2Error (RegisterSolution log t0 e0 n0 empty) (-1) = Except.ok none := by
  simp [GetL2Error, RegisterSolution, empty]

/-- C16. Rate formula: starting from `counter = 0` and empty arrays, after
registering solutions with L2 errors `e_0, ..., e_n` by `RegisterSolution`
(either overload, no `Clear` in between), `counter = n + 1`,
`L2Errors[k] = e_k` for all `k ≤ n`, `L2Rates[0] = 0` and
`L2Rates[k] = log(e_{k-1} / e_k) / log(2)` for `1 ≤ k ≤ n`. -/
theorem registerAll_rates (log : K → K) (rs : List (Solution K)) :
    (registerAll log rs empty).counter = rs.length
      ∧ GetL2Errors (registerAll log rs empty) = rs.map (fun r => r.L2Err)
      ∧ GetRates (registerAll log rs empty)
        = (List.range rs.length).map (rateAt log (rs.map (fun r => r.L2Err))) := by
  induction rs using List.reverseRecOn with
  | nil => simp [registerAll, empty, GetL2Errors, GetRates]
  | append_singleton rs r ih =>
    obtain ⟨h1, h2, h3⟩ := ih
    obtain ⟨f1, f2, f3⟩ := register_fields log (registerAll log rs empty) r
    unfold GetL2Errors at h2 ⊢
    unfold GetRates at h3 ⊢
    rw [registerAll_append, f1, f2, f3, h1, h2, h3]
    have hlen : (rs.map (fun r => r.L2Err)).length = rs.length := List.length_map _ _
    refine ⟨by simp, by simp, ?_⟩
    rw [List.length_append, List.length_singleton, List.range_succ, List.map_append,
      List.map_append, List.map_singleton, List.map_singleton]
    congr 1
    · refine List.map_congr_left (fun k hk => ?_)
      have hk' : k < rs.length := List.mem_range.1 hk
      unfold rateAt
      by_cases h0 : k = 0
      · simp [h0]
      · rw [if_neg h0, if_neg h0,
          List.getD_append _ _ _ _ (by rw [hlen]; omega : k - 1 < _),
          List.getD_append _ _ _ _ (by rw [hlen]; omega : k < _)]
    · unfold rateAt
      by_cases h0 : rs.length = 0
      · simp [h0]
      · have hlast : (List.map (fun r => r.L2Err) rs ++ [r.L2Err]).getD rs.length 0
            = r.L2Err := by
          rw [List.getD_append_right _ _ _ _ (by rw [hlen])]
          simp [hlen]
        rw [if_neg h0, if_pos h0, hlast]

/-- C17, the failing input: for `L2Err = 1` and `L2norm = 2` in the empty state
the scalar overload appends `L2Err / L2norm = 1/2` to `L2RelErrors` and the
vector overload appends `L2Err = 1`; in any state the vector overload appends
`L2Err` itself. -/
theorem RegisterSolution_Vector_appends_error :
    (RegisterSolution (fun x => x) 1 (1 : ℚ) 2 empty).L2RelErrors = [1 / 2]
      ∧ (RegisterSolution_Vector (fun x => x) 1 (1 : ℚ) 2 empty).L2RelErrors = [1]
      ∧ (RegisterSolution (fun x => x) 1 (1 : ℚ) 2 empty).L2RelErrors
          ≠ (RegisterSolution_Vector (fun x => x) 1 (1 : ℚ) 2 empty).L2RelErrors
      ∧ ∀ (log : ℚ → ℚ) (tdofs : Int) (L2Err L2norm : ℚ) (s : ConvergenceRates ℚ),
          (RegisterSolution_Vector log tdofs L2Err L2norm s).L2RelErrors
            = s.L2RelErrors ++ [L2Err] := by
  refine ⟨by simp [RegisterSolution, empty], by simp [RegisterSolution_Vector, empty],
    by simp [RegisterSolution, RegisterSolution_Vector, empty], ?_⟩
  intro log tdofs L2Err L2norm s
  rfl

end ConvergenceRates
